import Mathlib

/-!
Verification of the BingoCoin in-memory economy engine (src/bingocoin.py).

The Python module keeps one global dictionary `GAME` with players, per-player
ledgers, prizes, a pot, and an activity log, and exposes engine operations
(join, player_play, cashier_credit, cashier_add_prize, cashier_assign_prize,
cashier_reset_players, cashier_logout).  The state and each operation are
embedded below as pure Lean functions: the global dictionary becomes the
`GameState` structure, Python dicts become association lists with dict
semantics (unique keys: update-in-place or append), fallible endpoints return
`Except ApiError GameState`, and the `await ws_manager.broadcast()` calls are
counted in the `broadcasts` field.  Timestamps (`now_ts`) and the random id
from `secrets.token_hex` are passed in as parameters.
-/

namespace BingoCoin

/-- Models Python str.strip on the underlying characters: drop leading and
trailing whitespace. -/
def pyStrip (s : String) : String :=
  ⟨((s.data.dropWhile Char.isWhitespace).reverse.dropWhile Char.isWhitespace).reverse⟩

/-- Models Python str.lower on the underlying characters. -/
def pyLower (s : String) : String :=
  ⟨s.data.map Char.toLower⟩

/-- Lexicographic comparison of character lists by code point, models the
ordering Python list.sort uses on strings. -/
def charListLe : List Char → List Char → Bool
  | [], _ => true
  | _ :: _, [] => false
  | a :: as, b :: bs =>
    if a.toNat < b.toNat then true
    else if b.toNat < a.toNat then false
    else charListLe as bs

/-- Sort key of `_players_public_for`: compare display names lowercased
(Python `key=lambda x: x["name"].lower()`). -/
def nameKeyLe (a b : String) : Bool :=
  charListLe (pyLower a).data (pyLower b).data

/-- A `GAME["players"]` value: `{name, role, saldo}`. -/
structure Player where
  name : String
  role : String
  saldo : Int
deriving DecidableEq

/-- A `GAME["ledger"]` entry: `{delta, note, ts}`. -/
structure LedgerEntry where
  delta : Int
  note : String
  ts : Nat
deriving DecidableEq

/-- A `GAME["prizes"]` entry: `{name, amount, winner_id, paid, ts}`. -/
structure Prize where
  name : String
  amount : Int
  winner_id : Option String
  paid : Bool
  ts : Nat
deriving DecidableEq

/-- A `GAME["log"]` entry: `{ts, msg}`. -/
structure LogEntry where
  ts : Nat
  msg : String
deriving DecidableEq

/-- The global `GAME` dictionary, plus a counter of `broadcast()` calls. -/
structure GameState where
  players : List (String × Player)
  ledger : List (String × List LedgerEntry)
  prizes : List Prize
  pot : Int
  log : List LogEntry
  broadcasts : Nat
deriving DecidableEq

/-- The initial `GAME` value. -/
def initState : GameState :=
  { players := [], ledger := [], prizes := [], pot := 0, log := [], broadcasts := 0 }

/-- Dict read `d.get(k)` / `d[k]`: first (unique) binding of the key. -/
def dictGet {α : Type} (k : String) : List (String × α) → Option α
  | [] => none
  | (k', v) :: rest => if k' = k then some v else dictGet k rest

/-- Dict write `d[k] = v`: update the binding in place, or append a new one. -/
def dictSet {α : Type} (k : String) (v : α) : List (String × α) → List (String × α)
  | [] => [(k, v)]
  | (k', v') :: rest => if k' = k then (k', v) :: rest else (k', v') :: dictSet k v rest

/-- Dict field update `d[k] = f d[k]` for a key assumed present. -/
def dictModify {α : Type} (k : String) (f : α → α) : List (String × α) → List (String × α)
  | [] => []
  | (k', v) :: rest => if k' = k then (k', f v) :: rest else (k', v) :: dictModify k f rest

/-- Dict delete `d.pop(k, None)`. -/
def dictRemove {α : Type} (k : String) : List (String × α) → List (String × α)
  | [] => []
  | (k', v) :: rest => if k' = k then dictRemove k rest else (k', v) :: dictRemove k rest

/-- HTTP error response: `HTMLResponse(msg, status_code)`. -/
structure ApiError where
  status : Nat
  msg : String
deriving DecidableEq

/-- `CASHIER_PIN` from the source configuration. -/
def CASHIER_PIN : String := "4321"

/-- `add_log`: prepend an activity-log entry, keep the newest 300. -/
def add_log (msg : String) (ts : Nat) (g : GameState) : GameState :=
  { g with log := (({ ts := ts, msg := msg } : LogEntry) :: g.log).take 300 }

/-- `ensure_ledger`: create an empty ledger for the id if absent. -/
def ensure_ledger (uid : String) (g : GameState) : GameState :=
  if (dictGet uid g.ledger).isSome then g
  else { g with ledger := dictSet uid [] g.ledger }

/-- `add_ledger_delta`: prepend a ledger entry, keep the newest 1500. -/
def add_ledger_delta (uid : String) (delta : Int) (note : String) (ts : Nat)
    (g : GameState) : GameState :=
  let g1 := ensure_ledger uid g
  let entry : LedgerEntry := { delta := delta, note := note, ts := ts }
  { g1 with ledger := dictModify uid (fun l => (entry :: l).take 1500) g1.ledger }

/-- `get_cashier_id`: first registered id whose role is "cassiere". -/
def get_cashier_id (g : GameState) : Option String :=
  (g.players.find? (fun kv => decide (kv.2.role = "cassiere"))).map Prod.fst

/-- `require_cashier`: resolve the `X-User` header to a registered cashier. -/
def require_cashier (uid : Option String) (g : GameState) : Except ApiError String :=
  match uid with
  | none => .error ⟨403, "Non autorizzato"⟩
  | some u =>
    if u = "" then .error ⟨403, "Non autorizzato"⟩
    else
      match dictGet u g.players with
      | none => .error ⟨403, "Non autorizzato"⟩
      | some p => if p.role = "cassiere" then .ok u else .error ⟨403, "Solo cassiere"⟩

/-- `require_player`: resolve the `X-User` header to a registered player. -/
def require_player (uid : Option String) (g : GameState) : Except ApiError String :=
  match uid with
  | none => .error ⟨403, "Non autorizzato"⟩
  | some u =>
    if u = "" then .error ⟨403, "Non autorizzato"⟩
    else
      match dictGet u g.players with
      | none => .error ⟨403, "Non autorizzato"⟩
      | some p => if p.role = "giocatore" then .ok u else .error ⟨403, "Solo giocatore"⟩

/-- Sum of amounts of prizes on a list that are not yet paid. -/
def unpaidTotal (ps : List Prize) : Int :=
  ((ps.filter (fun p => !p.paid)).map Prize.amount).sum

/-- `total_prizes_defined_unpaid`: sum of amounts of unpaid prizes. -/
def total_prizes_defined_unpaid (g : GameState) : Int :=
  unpaidTotal g.prizes

/-- `total_prizes_paid`: sum of amounts of paid prizes. -/
def total_prizes_paid (g : GameState) : Int :=
  ((g.prizes.filter (fun p => p.paid)).map Prize.amount).sum

/-- Placeholder prize for the (always in-range) indexed access in
`cashier_assign_prize`. -/
def defaultPrize : Prize :=
  { name := "", amount := 0, winner_id := none, paid := false, ts := 0 }

/-- Shared tail of `/join`: register a brand-new participant under the fresh
id produced by `secrets.token_hex(8)`. -/
def joinCreate (fresh name role : String) (ts : Nat) (g : GameState) :
    Except ApiError (GameState × String × String × String) :=
  let g1 := { g with players := dictSet fresh { name := name, role := role, saldo := 0 } g.players }
  let g2 := ensure_ledger fresh g1
  let g3 := add_log (s!"{name} è entrato ({role})") ts g2
  .ok ({ g3 with broadcasts := g3.broadcasts + 1 }, fresh, name, role)

/-- `/join` (`join`): returns the updated state and the `{id, name, role}`
payload of the response. -/
def join (fresh nameRaw roleRaw pinRaw : String) (ts : Nat) (g : GameState) :
    Except ApiError (GameState × String × String × String) :=
  let name := pyStrip nameRaw
  let role := pyStrip roleRaw
  let pin := pyStrip pinRaw
  if name = "" then .error ⟨400, "Nome mancante"⟩
  else if role ≠ "giocatore" ∧ role ≠ "cassiere" then .error ⟨400, "Ruolo non valido"⟩
  else if role = "cassiere" then
    if pin ≠ CASHIER_PIN then .error ⟨403, "PIN cassiere errato"⟩
    else
      match get_cashier_id g with
      | some existing =>
        if existing = "" then joinCreate fresh name role ts g
        else
          let players1 := dictModify existing (fun p => { p with name := name }) g.players
          let g1 := { g with players := players1 }
          let g2 := add_log (s!"Cassiere rientrato: {name}") ts g1
          .ok ({ g2 with broadcasts := g2.broadcasts + 1 }, existing, name, "cassiere")
      | none => joinCreate fresh name role ts g
  else joinCreate fresh name role ts g

/-- `/player/play` (`player_play`): wager into the pot. -/
def player_play (uid : Option String) (amountRaw : Option Int) (ts : Nat)
    (g : GameState) : Except ApiError GameState :=
  match require_player uid g with
  | .error e => .error e
  | .ok player_id =>
    match amountRaw with
    | none => .error ⟨400, "Importo non valido"⟩
    | some amount =>
      if amount ≤ 0 then .error ⟨400, "Importo deve essere > 0"⟩
      else
        let saldo := match dictGet player_id g.players with
          | some p => p.saldo
          | none => 0
        if amount > saldo then .error ⟨400, "Importo superiore al saldo disponibile"⟩
        else
          let players1 := dictModify player_id (fun p => { p with saldo := saldo - amount }) g.players
          let g1 := { g with players := players1 }
          let g2 := add_ledger_delta player_id (-amount) "Gioca" ts g1
          let g3 := { g2 with pot := g2.pot + amount }
          let pname := ((dictGet player_id g3.players).map Player.name).getD ""
          let g4 := add_log (s!"Montepremi +{amount} (da {pname})") ts g3
          .ok { g4 with broadcasts := g4.broadcasts + 1 }

/-- `/cashier/credit` (`cashier_credit`): transfer from cashier to player. -/
def cashier_credit (uid : Option String) (player_idRaw : String)
    (amountRaw : Option Int) (ts : Nat) (g : GameState) : Except ApiError GameState :=
  match require_cashier uid g with
  | .error e => .error e
  | .ok cashier_id =>
    let player_id := pyStrip player_idRaw
    if player_id = "" then .error ⟨400, "Giocatore non valido"⟩
    else
      match dictGet player_id g.players with
      | none => .error ⟨400, "Giocatore non valido"⟩
      | some target =>
        if target.role ≠ "giocatore" then .error ⟨400, "Seleziona un giocatore"⟩
        else
          match amountRaw with
          | none => .error ⟨400, "Importo non valido"⟩
          | some amount =>
            if amount ≤ 0 then .error ⟨400, "Importo deve essere > 0"⟩
            else
              let players1 := dictModify player_id (fun p => { p with saldo := p.saldo + amount }) g.players
              let g1 := { g with players := players1 }
              let g2 := add_ledger_delta player_id amount "Accredito" ts g1
              let tname := ((dictGet player_id g2.players).map Player.name).getD ""
              let players2 := dictModify cashier_id (fun p => { p with saldo := p.saldo - amount }) g2.players
              let g3 := { g2 with players := players2 }
              let g4 := add_ledger_delta cashier_id (-amount) (s!"Accredito a {tname}") ts g3
              let tname2 := ((dictGet player_id g4.players).map Player.name).getD ""
              let g5 := add_log (s!"Accredito: {tname2} +{amount} · Cassiere -{amount}") ts g4
              .ok { g5 with broadcasts := g5.broadcasts + 1 }

/-- `/cashier/add_prize` (`cashier_add_prize`): define an unpaid prize,
checked against the current pot. -/
def cashier_add_prize (uid : Option String) (nameRaw : String)
    (amountRaw : Option Int) (ts : Nat) (g : GameState) : Except ApiError GameState :=
  match require_cashier uid g with
  | .error e => .error e
  | .ok _ =>
    let name := pyStrip nameRaw
    if name = "" then .error ⟨400, "Nome premio mancante"⟩
    else
      match amountRaw with
      | none => .error ⟨400, "Importo non valido"⟩
      | some amount =>
        if amount ≤ 0 then .error ⟨400, "Importo deve essere > 0"⟩
        else
          let defined_unpaid := total_prizes_defined_unpaid g
          let pot := g.pot
          if defined_unpaid + amount > pot then
            .error ⟨400, s!"Premi (non pagati) eccedono il montepremi: {defined_unpaid}+{amount} > {pot}"⟩
          else
            let newPrize : Prize :=
              { name := name, amount := amount, winner_id := none, paid := false, ts := ts }
            let g1 := { g with prizes := g.prizes ++ [newPrize] }
            let g2 := add_log (s!"Premio definito: {name} = {amount}") ts g1
            .ok { g2 with broadcasts := g2.broadcasts + 1 }

/-- `/cashier/assign_prize` (`cashier_assign_prize`): pay a prize from the
pot to a winner. -/
def cashier_assign_prize (uid : Option String) (idxRaw : Option Int)
    (winner_idRaw : String) (ts : Nat) (g : GameState) : Except ApiError GameState :=
  match require_cashier uid g with
  | .error e => .error e
  | .ok _ =>
    match idxRaw with
    | none => .error ⟨400, "Indice premio non valido"⟩
    | some idx =>
      if idx < 0 ∨ (g.prizes.length : Int) ≤ idx then .error ⟨404, "Premio non trovato"⟩
      else
        let i := idx.toNat
        let prize := g.prizes.getD i defaultPrize
        if prize.paid then .error ⟨400, "Premio già pagato"⟩
        else
          let winner_id := pyStrip winner_idRaw
          if winner_id = "" then .error ⟨400, "Vincitore non valido"⟩
          else
            match dictGet winner_id g.players with
            | none => .error ⟨400, "Vincitore non valido"⟩
            | some w =>
              if w.role ≠ "giocatore" then .error ⟨400, "Il vincitore deve essere un giocatore"⟩
              else
                let amount := prize.amount
                let pname := prize.name
                if g.pot < amount then
                  .error ⟨400, "Montepremi insufficiente per pagare questo premio"⟩
                else
                  let players1 := dictModify winner_id (fun p => { p with saldo := p.saldo + amount }) g.players
                  let g1 := { g with players := players1 }
                  let g2 := add_ledger_delta winner_id amount (s!"Premio: {pname}") ts g1
                  let g3 := { g2 with pot := g2.pot - amount }
                  let prizes1 := g3.prizes.set i { prize with winner_id := some winner_id, paid := true }
                  let g4 := { g3 with prizes := prizes1 }
                  let wname := ((dictGet winner_id g4.players).map Player.name).getD ""
                  let g5 := add_log (s!"Premio assegnato: {pname} -> {wname} ({amount})") ts g4
                  .ok { g5 with broadcasts := g5.broadcasts + 1 }

/-- `/cashier/reset_players` (`cashier_reset_players`): remove all players
and their ledgers, clear prizes and pot, zero the cashier. -/
def cashier_reset_players (uid : Option String) (ts : Nat) (g : GameState) :
    Except ApiError GameState :=
  match require_cashier uid g with
  | .error e => .error e
  | .ok cashier_id =>
    let to_remove := (g.players.filter (fun kv => decide (kv.2.role = "giocatore"))).map Prod.fst
    let players1 := to_remove.foldl (fun d u => dictRemove u d) g.players
    let ledger1 := to_remove.foldl (fun d u => dictRemove u d) g.ledger
    let g1 := { g with players := players1, ledger := ledger1, prizes := [], pot := 0 }
    let playersZ := dictModify cashier_id (fun p => { p with saldo := 0 }) g1.players
    let ledgerZ := dictSet cashier_id ([] : List LedgerEntry) g1.ledger
    let g2 :=
      if (dictGet cashier_id g1.players).isSome then
        { g1 with players := playersZ, ledger := ledgerZ }
      else g1
    let g3 := add_log "Reset: giocatori invalidati, premi e montepremi azzerati, saldo cassiere azzerato." ts g2
    .ok { g3 with broadcasts := g3.broadcasts + 1 }

/-- `/cashier/logout` (`cashier_logout`): remove the cashier and its ledger. -/
def cashier_logout (uid : Option String) (ts : Nat) (g : GameState) :
    Except ApiError GameState :=
  match require_cashier uid g with
  | .error e => .error e
  | .ok cashier_id =>
    let name := ((dictGet cashier_id g.players).map Player.name).getD ""
    let players1 := dictRemove cashier_id g.players
    let ledger1 := dictRemove cashier_id g.ledger
    let g1 := { g with players := players1, ledger := ledger1 }
    let g2 := add_log (s!"Cassiere uscito: {name} (sessione invalidata)") ts g1
    .ok { g2 with broadcasts := g2.broadcasts + 1 }

/-- One engine operation together with its request parameters, the timestamp
at which it runs, and (for join) the freshly generated id. -/
inductive Op where
  | opJoin (fresh name role pin : String) (ts : Nat)
  | opPlay (uid : Option String) (amount : Option Int) (ts : Nat)
  | opCredit (uid : Option String) (player_id : String) (amount : Option Int) (ts : Nat)
  | opAddPrize (uid : Option String) (name : String) (amount : Option Int) (ts : Nat)
  | opAssignPrize (uid : Option String) (idx : Option Int) (winner_id : String) (ts : Nat)
  | opReset (uid : Option String) (ts : Nat)
  | opLogout (uid : Option String) (ts : Nat)
deriving DecidableEq

/-- The raw result of running one operation against a state. -/
def opResult (o : Op) (g : GameState) : Except ApiError GameState :=
  match o with
  | .opJoin fresh name role pin ts =>
    match join fresh name role pin ts g with
    | .ok r => .ok r.1
    | .error e => .error e
  | .opPlay uid amount ts => player_play uid amount ts g
  | .opCredit uid pid amount ts => cashier_credit uid pid amount ts g
  | .opAddPrize uid name amount ts => cashier_add_prize uid name amount ts g
  | .opAssignPrize uid idx wid ts => cashier_assign_prize uid idx wid ts g
  | .opReset uid ts => cashier_reset_players uid ts g
  | .opLogout uid ts => cashier_logout uid ts g

/-- Commit a result: a failed request leaves the global state as it was. -/
def stepResult (r : Except ApiError GameState) (g : GameState) : GameState :=
  match r with
  | .ok g' => g'
  | .error _ => g

/-- Apply one operation to the state.  For join, the id produced by
`secrets.token_hex(8)` is sixteen hex characters, never the empty string, so
runs with an empty fresh id are excluded. -/
def apply (o : Op) (g : GameState) : GameState :=
  match o with
  | .opJoin fresh _ _ _ _ => if fresh = "" then g else stepResult (opResult o g) g
  | _ => stepResult (opResult o g) g

/-- Run a sequence of operations from a state. -/
def run (ops : List Op) (g : GameState) : GameState :=
  ops.foldl (fun s o => apply o s) g

/-- A state the engine can reach from the initial `GAME` value. -/
def Reachable (g : GameState) : Prop :=
  ∃ ops : List Op, run ops initState = g

/-- The operation is a Wager, Credit, or AssignPrize. -/
def isWCA : Op → Prop
  | .opPlay _ _ _ => True
  | .opCredit _ _ _ _ => True
  | .opAssignPrize _ _ _ _ => True
  | _ => False

/-- The caller identified by `uid` is registered with the given role and would
pass the corresponding `require_` check. -/
def RegisteredAs (role : String) (uid : Option String) (g : GameState) : Prop :=
  ∃ u p, uid = some u ∧ u ≠ "" ∧ dictGet u g.players = some p ∧ p.role = role

/-- Sum of the balances of all registered participants. -/
def saldoSum (d : List (String × Player)) : Int :=
  (d.map (fun kv => kv.2.saldo)).sum

/-- Total value in the system: sum of all participants' balances plus pot. -/
def totalValue (g : GameState) : Int :=
  saldoSum g.players + g.pot

/-- Predicate selecting registry entries whose role is cashier. -/
def isCashierEntry : String × Player → Bool :=
  fun kv => decide (kv.2.role = "cassiere")

/-- Number of registered participants whose role is cashier. -/
def cashierCount (g : GameState) : Nat :=
  g.players.countP isCashierEntry

/-- Invariant maintained by every engine operation: non-negative pot, escrow
sufficiency, positive prize amounts, at most one cashier, dict-like keys. -/
def Inv (g : GameState) : Prop :=
  0 ≤ g.pot ∧
  unpaidTotal g.prizes ≤ g.pot ∧
  (∀ p ∈ g.prizes, 0 < p.amount) ∧
  cashierCount g ≤ 1 ∧
  (g.players.map Prod.fst).Nodup ∧
  "" ∉ g.players.map Prod.fst

/-- One row of the participant list produced by `_players_public_for`:
`{id, name, role, saldo}`, where `saldo` is `None` when hidden. -/
structure PublicPlayer where
  id : String
  name : String
  role : String
  saldo : Option Int
deriving DecidableEq

/-- The pot block of `public_state_for`: only the cashier sees the totals. -/
structure PotBlock where
  pot : Int
  prizes_defined_total : Option Int
  prizes_paid_total : Option Int
  pot_remaining : Option Int
deriving DecidableEq

/-- The snapshot produced by `public_state_for` (the constant `title` field is
omitted). -/
structure Snapshot where
  players : List PublicPlayer
  my_history : List LedgerEntry
  prizes : List Prize
  pot : PotBlock
  log : List LogEntry
deriving DecidableEq

/-- The viewer lookup `GAME["players"].get(viewer_id) if viewer_id else None`
shared by `_players_public_for` and `public_state_for`. -/
def viewerOf (viewer_id : Option String) (g : GameState) : Option Player :=
  match viewer_id with
  | none => none
  | some vid => if vid = "" then none else dictGet vid g.players

/-- The balance column of one row of `_players_public_for`. -/
def publicSaldo (viewer_id : Option String) (g : GameState) (kv : String × Player) : Option Int :=
  if (viewerOf viewer_id g).map Player.role = some "cassiere" then some kv.2.saldo
  else if viewer_id ≠ none ∧ viewer_id ≠ some "" ∧ viewer_id = some kv.1 then some kv.2.saldo
  else none

/-- `_players_public_for`: the participant list as the given viewer sees it,
sorted by lowercased display name. -/
def players_public_for (viewer_id : Option String) (g : GameState) : List PublicPlayer :=
  let out := g.players.map (fun kv =>
    { id := kv.1, name := kv.2.name, role := kv.2.role,
      saldo := publicSaldo viewer_id g kv })
  out.mergeSort (fun x y => nameKeyLe x.name y.name)

/-- `_my_history_public_for`: the viewer's own ledger, player viewers only. -/
def my_history_public_for (viewer_id : Option String) (g : GameState) : List LedgerEntry :=
  match viewer_id with
  | none => []
  | some vid =>
    if vid = "" then []
    else
      match dictGet vid g.players with
      | none => []
      | some p =>
        if p.role ≠ "giocatore" then []
        else ((dictGet vid g.ledger).getD []).take 250

/-- `public_state_for`: the role-filtered snapshot sent to a viewer. -/
def public_state_for (viewer_id : Option String) (g : GameState) : Snapshot :=
  let role : Option String := (viewerOf viewer_id g).map Player.role
  let prizes_out : List Prize :=
    if role = some "cassiere" then g.prizes
    else if role = some "giocatore" then g.prizes.filter (fun p => !p.paid)
    else []
  let pot := g.pot
  let unpaid := total_prizes_defined_unpaid g
  let pot_remaining := if pot - unpaid < 0 then 0 else pot - unpaid
  let pot_block : PotBlock :=
    if role = some "cassiere" then
      { pot := pot, prizes_defined_total := some unpaid,
        prizes_paid_total := some (total_prizes_paid g), pot_remaining := some pot_remaining }
    else
      { pot := pot, prizes_defined_total := none, prizes_paid_total := none,
        pot_remaining := none }
  { players := players_public_for viewer_id g,
    my_history := my_history_public_for viewer_id g,
    prizes := prizes_out,
    pot := pot_block,
    log := g.log }

/-! ### Association-list (dict) lemmas -/

theorem dictGet_dictSet_self {α : Type} (k : String) (v : α) (d : List (String × α)) :
    dictGet k (dictSet k v d) = some v := by
  induction d with
  | nil => simp [dictGet, dictSet]
  | cons kv rest ih =>
    obtain ⟨k', v'⟩ := kv
    by_cases h : k' = k <;> simp [dictGet, dictSet, h, ih]

theorem dictGet_dictSet_ne {α : Type} {k₁ k : String} (h : k₁ ≠ k) (v : α)
    (d : List (String × α)) : dictGet k₁ (dictSet k v d) = dictGet k₁ d := by
  have h' : k ≠ k₁ := Ne.symm h
  induction d with
  | nil => simp [dictGet, dictSet, h']
  | cons kv rest ih =>
    obtain ⟨k', v'⟩ := kv
    by_cases hk : k' = k
    · subst hk
      simp [dictGet, dictSet, h']
    · simp [dictGet, dictSet, hk, ih]

theorem keys_dictModify {α : Type} (k : String) (f : α → α) (d : List (String × α)) :
    (dictModify k f d).map Prod.fst = d.map Prod.fst := by
  induction d with
  | nil => rfl
  | cons kv rest ih =>
    obtain ⟨k', v'⟩ := kv
    by_cases h : k' = k <;> simp [dictModify, h, ih]

theorem dictGet_dictModify_self {α : Type} {k : String} {d : List (String × α)} {v : α}
    (f : α → α) (h : dictGet k d = some v) :
    dictGet k (dictModify k f d) = some (f v) := by
  induction d with
  | nil => simp [dictGet] at h
  | cons kv rest ih =>
    obtain ⟨k', v'⟩ := kv
    by_cases hk : k' = k
    · simp_all [dictGet, dictModify]
    · simp_all [dictGet, dictModify]

theorem dictGet_dictModify_ne {α : Type} {k₁ k : String} (h : k₁ ≠ k) (f : α → α)
    (d : List (String × α)) : dictGet k₁ (dictModify k f d) = dictGet k₁ d := by
  have h' : k ≠ k₁ := Ne.symm h
  induction d with
  | nil => rfl
  | cons kv rest ih =>
    obtain ⟨k', v'⟩ := kv
    by_cases hk : k' = k
    · subst hk
      simp [dictGet, dictModify, h']
    · simp [dictGet, dictModify, hk, ih]

theorem dictRemove_sublist {α : Type} (k : String) (d : List (String × α)) :
    (dictRemove k d).Sublist d := by
  induction d with
  | nil => exact List.Sublist.refl _
  | cons kv rest ih =>
    obtain ⟨k', v'⟩ := kv
    by_cases hk : k' = k
    · simpa [dictRemove, hk] using ih.cons (k', v')
    · simpa [dictRemove, hk] using ih.cons₂ (k', v')

theorem dictGet_eq_none_iff {α : Type} {k : String} {d : List (String × α)} :
    dictGet k d = none ↔ k ∉ d.map Prod.fst := by
  induction d with
  | nil => simp [dictGet]
  | cons kv rest ih =>
    obtain ⟨k', v'⟩ := kv
    rw [List.map_cons, List.mem_cons]
    by_cases hk : k' = k
    · subst hk
      simp [dictGet]
    · simp only [dictGet, if_neg hk]
      rw [ih]
      constructor
      · rintro hnot (he | hm)
        · exact hk he.symm
        · exact hnot hm
      · intro hnot hm
        exact hnot (Or.inr hm)

theorem dictGet_isSome_iff {α : Type} {k : String} {d : List (String × α)} :
    (dictGet k d).isSome = true ↔ k ∈ d.map Prod.fst := by
  cases hd : dictGet k d with
  | none =>
    simp only [Option.isSome_none, Bool.false_eq_true, false_iff]
    exact dictGet_eq_none_iff.mp hd
  | some v =>
    simp only [Option.isSome_some, true_iff]
    by_contra hmem
    have hnone := dictGet_eq_none_iff.mpr hmem
    rw [hd] at hnone
    exact Option.noConfusion hnone

theorem dictGet_dictRemove_self {α : Type} (k : String) (d : List (String × α)) :
    dictGet k (dictRemove k d) = none := by
  induction d with
  | nil => rfl
  | cons kv rest ih =>
    obtain ⟨k', v'⟩ := kv
    by_cases hk : k' = k
    · simpa [dictRemove, hk] using ih
    · simpa [dictRemove, dictGet, hk] using ih

theorem dictGet_dictRemove_ne {α : Type} {k₁ k : String} (h : k₁ ≠ k)
    (d : List (String × α)) : dictGet k₁ (dictRemove k d) = dictGet k₁ d := by
  have h' : k ≠ k₁ := Ne.symm h
  induction d with
  | nil => rfl
  | cons kv rest ih =>
    obtain ⟨k', v'⟩ := kv
    by_cases hk : k' = k
    · subst hk
      simp [dictRemove, dictGet, h', ih]
    · simp [dictRemove, dictGet, hk, ih]

theorem dictGet_mem {α : Type} {k : String} {d : List (String × α)} {v : α}
    (h : dictGet k d = some v) : (k, v) ∈ d := by
  induction d with
  | nil => simp [dictGet] at h
  | cons kv rest ih =>
    obtain ⟨k', v'⟩ := kv
    by_cases hk : k' = k
    · subst hk
      simp only [dictGet, if_true, Option.some.injEq, eq_self_iff_true] at h
      simp [h]
    · simp only [dictGet, if_neg hk] at h
      exact List.mem_cons_of_mem _ (ih h)

theorem mem_nodup_dictGet {α : Type} {k : String} {d : List (String × α)} {v : α}
    (hmem : (k, v) ∈ d) (hnd : (d.map Prod.fst).Nodup) : dictGet k d = some v := by
  induction d with
  | nil => simp at hmem
  | cons kv rest ih =>
    obtain ⟨k', v'⟩ := kv
    rw [List.map_cons, List.nodup_cons] at hnd
    rcases List.mem_cons.mp hmem with heq | htail
    · injection heq with h1 h2
      subst h1
      subst h2
      simp [dictGet]
    · by_cases hk : k' = k
      · subst hk
        exact absurd (List.mem_map.mpr ⟨(k', v), htail, rfl⟩) hnd.1
      · simp only [dictGet, if_neg hk]
        exact ih htail hnd.2

theorem mem_keys_dictSet {α : Type} {a k : String} {v : α} {d : List (String × α)} :
    a ∈ (dictSet k v d).map Prod.fst ↔ a ∈ d.map Prod.fst ∨ a = k := by
  induction d with
  | nil => simp [dictSet]
  | cons kv rest ih =>
    obtain ⟨k', v'⟩ := kv
    by_cases hk : k' = k
    · subst hk
      simp [dictSet]
      tauto
    · simp [dictSet, hk, ih]
      tauto

theorem nodup_keys_dictSet {α : Type} {k : String} {v : α} {d : List (String × α)}
    (h : (d.map Prod.fst).Nodup) : ((dictSet k v d).map Prod.fst).Nodup := by
  induction d with
  | nil => simp [dictSet]
  | cons kv rest ih =>
    obtain ⟨k', v'⟩ := kv
    rw [List.map_cons, List.nodup_cons] at h
    by_cases hk : k' = k
    · subst hk
      simpa [dictSet] using h
    · rw [show dictSet k v ((k', v') :: rest) = (k', v') :: dictSet k v rest by
        simp [dictSet, hk]]
      rw [List.map_cons, List.nodup_cons]
      refine ⟨fun hmem => ?_, ih h.2⟩
      rcases mem_keys_dictSet.mp hmem with hm | he
      · exact h.1 hm
      · exact hk he

theorem countP_dictModify_eq {α : Type} (p : String × α → Bool) (k : String) (f : α → α)
    (d : List (String × α)) (hf : ∀ v, p (k, f v) = p (k, v)) :
    (dictModify k f d).countP p = d.countP p := by
  induction d with
  | nil => rfl
  | cons kv rest ih =>
    obtain ⟨k', v'⟩ := kv
    by_cases hk : k' = k
    · subst hk
      simp [dictModify, List.countP_cons, hf, ih]
    · simp [dictModify, hk, List.countP_cons, ih]

theorem countP_dictSet_le {α : Type} (p : String × α → Bool) (k : String) (v : α)
    (d : List (String × α)) : (dictSet k v d).countP p ≤ d.countP p + 1 := by
  induction d with
  | nil =>
    by_cases h1 : p (k, v) <;> simp [dictSet, List.countP_cons, h1]
  | cons kv rest ih =>
    obtain ⟨k', v'⟩ := kv
    by_cases hk : k' = k
    · subst hk
      rw [show dictSet k' v ((k', v') :: rest) = (k', v) :: rest by simp [dictSet]]
      by_cases h1 : p (k', v) <;> by_cases h2 : p (k', v') <;>
        simp [List.countP_cons, h1, h2] <;> omega
    · rw [show dictSet k v ((k', v') :: rest) = (k', v') :: dictSet k v rest by
        simp [dictSet, hk]]
      by_cases h2 : p (k', v') <;> simp [List.countP_cons, h2] <;> omega

theorem countP_dictSet_of_neg {α : Type} {p : String × α → Bool} {k : String} {v : α}
    (hp : p (k, v) = false) (d : List (String × α)) :
    (dictSet k v d).countP p ≤ d.countP p := by
  induction d with
  | nil => simp [dictSet, List.countP_cons, hp]
  | cons kv rest ih =>
    obtain ⟨k', v'⟩ := kv
    by_cases hk : k' = k
    · subst hk
      rw [show dictSet k' v ((k', v') :: rest) = (k', v) :: rest by simp [dictSet]]
      by_cases h2 : p (k', v') <;> simp [List.countP_cons, h2, hp] <;> omega
    · rw [show dictSet k v ((k', v') :: rest) = (k', v') :: dictSet k v rest by
        simp [dictSet, hk]]
      by_cases h2 : p (k', v') <;> simp [List.countP_cons, h2] <;> omega

theorem foldl_dictRemove_sublist {α : Type} (l : List String) (d : List (String × α)) :
    (l.foldl (fun d u => dictRemove u d) d).Sublist d := by
  induction l generalizing d with
  | nil => exact List.Sublist.refl _
  | cons a l ih =>
    exact (ih (dictRemove a d)).trans (dictRemove_sublist a d)

theorem foldl_dictRemove_get_of_mem {α : Type} {u : String} {l : List String}
    (hmem : u ∈ l) (d : List (String × α)) :
    dictGet u (l.foldl (fun d u => dictRemove u d) d) = none := by
  induction l generalizing d with
  | nil => simp at hmem
  | cons a l ih =>
    by_cases ha : u = a
    · subst ha
      rw [dictGet_eq_none_iff]
      intro hmemk
      have hsub : ((l.foldl (fun d u => dictRemove u d) (dictRemove u d)).map Prod.fst).Sublist
          ((dictRemove u d).map Prod.fst) :=
        (foldl_dictRemove_sublist l (dictRemove u d)).map Prod.fst
      have : u ∈ (dictRemove u d).map Prod.fst := hsub.subset hmemk
      exact dictGet_eq_none_iff.mp (dictGet_dictRemove_self u d) this
    · rcases List.mem_cons.mp hmem with he | hl
      · exact absurd he ha
      · exact ih hl (dictRemove a d)

theorem foldl_dictRemove_get_of_not_mem {α : Type} {u : String} {l : List String}
    (hmem : u ∉ l) (d : List (String × α)) :
    dictGet u (l.foldl (fun d u => dictRemove u d) d) = dictGet u d := by
  induction l generalizing d with
  | nil => rfl
  | cons a l ih =>
    have ha : u ≠ a := fun he => hmem (he ▸ List.mem_cons_self a l)
    have hl : u ∉ l := fun hm => hmem (List.mem_cons_of_mem a hm)
    rw [List.foldl_cons, ih hl, dictGet_dictRemove_ne ha]

/-! ### State projections of the small mutation helpers -/

@[simp]
theorem add_log_players (msg : String) (ts : Nat) (g : GameState) :
    (add_log msg ts g).players = g.players := rfl

@[simp]
theorem add_log_ledger (msg : String) (ts : Nat) (g : GameState) :
    (add_log msg ts g).ledger = g.ledger := rfl

@[simp]
theorem add_log_prizes (msg : String) (ts : Nat) (g : GameState) :
    (add_log msg ts g).prizes = g.prizes := rfl

@[simp]
theorem add_log_pot (msg : String) (ts : Nat) (g : GameState) :
    (add_log msg ts g).pot = g.pot := rfl

@[simp]
theorem ensure_ledger_players (uid : String) (g : GameState) :
    (ensure_ledger uid g).players = g.players := by
  unfold ensure_ledger
  split <;> rfl

@[simp]
theorem ensure_ledger_prizes (uid : String) (g : GameState) :
    (ensure_ledger uid g).prizes = g.prizes := by
  unfold ensure_ledger
  split <;> rfl

@[simp]
theorem ensure_ledger_pot (uid : String) (g : GameState) :
    (ensure_ledger uid g).pot = g.pot := by
  unfold ensure_ledger
  split <;> rfl

@[simp]
theorem add_ledger_delta_players (uid : String) (delta : Int) (note : String) (ts : Nat)
    (g : GameState) : (add_ledger_delta uid delta note ts g).players = g.players := by
  simp [add_ledger_delta]

@[simp]
theorem add_ledger_delta_prizes (uid : String) (delta : Int) (note : String) (ts : Nat)
    (g : GameState) : (add_ledger_delta uid delta note ts g).prizes = g.prizes := by
  simp [add_ledger_delta]

@[simp]
theorem add_ledger_delta_pot (uid : String) (delta : Int) (note : String) (ts : Nat)
    (g : GameState) : (add_ledger_delta uid delta note ts g).pot = g.pot := by
  simp [add_ledger_delta]

/-! ### Authentication helpers, inverted -/

theorem require_player_ok {uid : Option String} {g : GameState} {u : String}
    (h : require_player uid g = .ok u) :
    uid = some u ∧ u ≠ "" ∧ ∃ p, dictGet u g.players = some p ∧ p.role = "giocatore" := by
  cases uid with
  | none => simp [require_player] at h
  | some s =>
    simp only [require_player] at h
    split at h
    · exact absurd h (by simp)
    · rename_i hs
      split at h
      · exact absurd h (by simp)
      · rename_i p hd
        split at h
        · rename_i hr
          have hsu : s = u := by injection h
          subst hsu
          exact ⟨rfl, hs, p, hd, hr⟩
        · exact absurd h (by simp)

theorem require_cashier_ok {uid : Option String} {g : GameState} {u : String}
    (h : require_cashier uid g = .ok u) :
    uid = some u ∧ u ≠ "" ∧ ∃ p, dictGet u g.players = some p ∧ p.role = "cassiere" := by
  cases uid with
  | none => simp [require_cashier] at h
  | some s =>
    simp only [require_cashier] at h
    split at h
    · exact absurd h (by simp)
    · rename_i hs
      split at h
      · exact absurd h (by simp)
      · rename_i p hd
        split at h
        · rename_i hr
          have hsu : s = u := by injection h
          subst hsu
          exact ⟨rfl, hs, p, hd, hr⟩
        · exact absurd h (by simp)

theorem require_player_error_status {uid : Option String} {g : GameState} {e : ApiError}
    (h : require_player uid g = .error e) : e.status = 403 := by
  cases uid with
  | none =>
    simp only [require_player] at h
    injection h with h
    rw [← h]
  | some s =>
    simp only [require_player] at h
    split at h
    · injection h with h
      rw [← h]
    · split at h
      · injection h with h
        rw [← h]
      · split at h
        · exact absurd h (by simp)
        · injection h with h
          rw [← h]

theorem require_player_error_of_not_registered {uid : Option String} {g : GameState}
    (h : ¬ RegisteredAs "giocatore" uid g) :
    ∃ e, require_player uid g = .error e ∧ e.status = 403 := by
  cases hr : require_player uid g with
  | error e => exact ⟨e, rfl, require_player_error_status hr⟩
  | ok u =>
    obtain ⟨h1, h2, p, h3, h4⟩ := require_player_ok hr
    exact absurd ⟨u, p, h1, h2, h3, h4⟩ h

/-! ### Conservation of value -/

@[simp]
theorem saldoSum_nil : saldoSum [] = 0 := rfl

@[simp]
theorem saldoSum_cons (kv : String × Player) (d : List (String × Player)) :
    saldoSum (kv :: d) = kv.2.saldo + saldoSum d := by
  simp [saldoSum]

theorem saldoSum_dictModify {k : String} {d : List (String × Player)} {v : Player}
    (f : Player → Player) (h : dictGet k d = some v) :
    saldoSum (dictModify k f d) = saldoSum d - v.saldo + (f v).saldo := by
  induction d with
  | nil => simp [dictGet] at h
  | cons kv rest ih =>
    obtain ⟨k', v'⟩ := kv
    by_cases hk : k' = k
    · subst hk
      simp only [dictGet, if_true, eq_self_iff_true, Option.some.injEq] at h
      subst h
      rw [show dictModify k' f ((k', v') :: rest) = (k', f v') :: rest by simp [dictModify]]
      simp only [saldoSum_cons]
      ring
    · rw [show dictModify k f ((k', v') :: rest) = (k', v') :: dictModify k f rest by
        simp [dictModify, hk]]
      simp only [dictGet, if_neg hk] at h
      simp only [saldoSum_cons, ih h]
      ring

theorem totalValue_player_play (uid : Option String) (a : Option Int) (ts : Nat)
    (g : GameState) : totalValue (stepResult (player_play uid a ts g) g) = totalValue g := by
  unfold player_play
  split
  · simp [stepResult]
  · rename_i pid hrp
    obtain ⟨_, _, p, hp, _⟩ := require_player_ok hrp
    split
    · simp [stepResult]
    · rename_i amount
      split
      · simp [stepResult]
      · simp only [hp]
        split
        · simp [stepResult]
        · simp only [stepResult, totalValue, add_log_players, add_log_pot,
            add_ledger_delta_players, add_ledger_delta_pot]
          rw [saldoSum_dictModify _ hp]
          ring

theorem totalValue_cashier_credit (uid : Option String) (pidRaw : String) (a : Option Int)
    (ts : Nat) (g : GameState) :
    totalValue (stepResult (cashier_credit uid pidRaw a ts g) g) = totalValue g := by
  cases hrc : require_cashier uid g with
  | error e => simp [cashier_credit, hrc, stepResult]
  | ok cid =>
    obtain ⟨_, _, pc, hpc, hrolec⟩ := require_cashier_ok hrc
    by_cases h0 : pyStrip pidRaw = ""
    · simp [cashier_credit, hrc, h0, stepResult]
    · cases hd : dictGet (pyStrip pidRaw) g.players with
      | none => simp [cashier_credit, hrc, h0, hd, stepResult]
      | some target =>
        by_cases hrole : target.role = "giocatore"
        · cases a with
          | none => simp [cashier_credit, hrc, h0, hd, hrole, stepResult]
          | some amount =>
            by_cases hle : amount ≤ 0
            · simp [cashier_credit, hrc, h0, hd, hrole, hle, stepResult]
            · have hne : pyStrip pidRaw ≠ cid := by
                intro he
                rw [he, hpc] at hd
                injection hd with hd
                rw [hd, hrole] at hrolec
                exact absurd hrolec (by decide)
              have hgc : dictGet cid (dictModify (pyStrip pidRaw)
                  (fun p => { p with saldo := p.saldo + amount }) g.players) = some pc := by
                rw [dictGet_dictModify_ne (Ne.symm hne), hpc]
              simp only [cashier_credit, hrc, h0, hd, hrole, hle, if_false,
                ite_false, stepResult, totalValue, add_log_players, add_log_pot,
                add_ledger_delta_players, add_ledger_delta_pot, ne_eq,
                not_true_eq_false, not_false_eq_true, ite_true, if_true,
                Bool.false_eq_true, if_neg, reduceIte]
              rw [saldoSum_dictModify _ hgc, saldoSum_dictModify _ hd]
              ring
        · simp [cashier_credit, hrc, h0, hd, hrole, stepResult]

theorem totalValue_cashier_assign_prize (uid : Option String) (idxRaw : Option Int)
    (wRaw : String) (ts : Nat) (g : GameState) :
    totalValue (stepResult (cashier_assign_prize uid idxRaw wRaw ts g) g) = totalValue g := by
  cases hrc : require_cashier uid g with
  | error e => simp [cashier_assign_prize, hrc, stepResult]
  | ok cid =>
    cases idxRaw with
    | none => simp [cashier_assign_prize, hrc, stepResult]
    | some idx =>
      by_cases hb : idx < 0 ∨ (g.prizes.length : Int) ≤ idx
      · simp [cashier_assign_prize, hrc, hb, stepResult]
      · by_cases hpaid : (g.prizes[idx.toNat]?.getD defaultPrize).paid
        · simp [cashier_assign_prize, hrc, hb, hpaid, stepResult]
        · by_cases h0 : pyStrip wRaw = ""
          · simp [cashier_assign_prize, hrc, hb, hpaid, h0, stepResult]
          · cases hw : dictGet (pyStrip wRaw) g.players with
            | none => simp [cashier_assign_prize, hrc, hb, hpaid, h0, hw, stepResult]
            | some w =>
              by_cases hrole : w.role = "giocatore"
              · by_cases hpot : g.pot < (g.prizes[idx.toNat]?.getD defaultPrize).amount
                · simp [cashier_assign_prize, hrc, hb, hpaid, h0, hw, hrole, hpot, stepResult]
                · simp only [cashier_assign_prize, hrc, hb, hpaid, h0, hw, hrole, hpot,
                    List.getD_eq_getElem?_getD, if_false, ite_false, stepResult,
                    totalValue, add_log_players, add_log_pot, add_ledger_delta_players,
                    add_ledger_delta_pot, ne_eq, not_true_eq_false, not_false_eq_true,
                    ite_true, if_true, Bool.false_eq_true, reduceIte]
                  rw [saldoSum_dictModify _ hw]
                  ring
              · simp [cashier_assign_prize, hrc, hb, hpaid, h0, hw, hrole, stepResult]

/-! ### Prize-list lemmas -/

@[simp]
theorem unpaidTotal_nil : unpaidTotal [] = 0 := rfl

theorem unpaidTotal_cons (p : Prize) (ps : List Prize) :
    unpaidTotal (p :: ps) = (if p.paid then 0 else p.amount) + unpaidTotal ps := by
  by_cases h : p.paid <;> simp [unpaidTotal, h]

theorem unpaidTotal_append (ps qs : List Prize) :
    unpaidTotal (ps ++ qs) = unpaidTotal ps + unpaidTotal qs := by
  induction ps with
  | nil => simp
  | cons p ps ih =>
    rw [List.cons_append, unpaidTotal_cons, unpaidTotal_cons, ih]
    ring

theorem unpaidTotal_nonneg {ps : List Prize} (h : ∀ q ∈ ps, 0 ≤ q.amount) :
    0 ≤ unpaidTotal ps := by
  induction ps with
  | nil => simp
  | cons p ps ih =>
    rw [unpaidTotal_cons]
    have hp := h p (List.mem_cons_self _ _)
    have hrest := ih fun q hq => h q (List.mem_cons_of_mem _ hq)
    by_cases hpaid : p.paid <;> simp [hpaid] <;> omega

theorem unpaidTotal_set_paid {ps : List Prize} {i : Nat} {pr : Prize} (w : Option String)
    (h : ps[i]? = some pr) (hp : pr.paid = false) :
    unpaidTotal (ps.set i { pr with winner_id := w, paid := true }) =
      unpaidTotal ps - pr.amount := by
  induction ps generalizing i with
  | nil => simp at h
  | cons q ps ih =>
    cases i with
    | zero =>
      simp only [List.getElem?_cons_zero, Option.some.injEq] at h
      subst h
      rw [List.set_cons_zero, unpaidTotal_cons, unpaidTotal_cons]
      simp [hp]
    | succ n =>
      simp only [List.getElem?_cons_succ] at h
      rw [List.set_cons_succ, unpaidTotal_cons, unpaidTotal_cons, ih h]
      ring

theorem amount_le_unpaidTotal {ps : List Prize} {i : Nat} {pr : Prize}
    (h : ps[i]? = some pr) (hp : pr.paid = false)
    (hpos : ∀ q ∈ ps, 0 ≤ q.amount) : pr.amount ≤ unpaidTotal ps := by
  induction ps generalizing i with
  | nil => simp at h
  | cons q ps ih =>
    have hrest : ∀ r ∈ ps, 0 ≤ r.amount := fun r hr => hpos r (List.mem_cons_of_mem _ hr)
    cases i with
    | zero =>
      simp only [List.getElem?_cons_zero, Option.some.injEq] at h
      subst h
      rw [unpaidTotal_cons]
      have := unpaidTotal_nonneg hrest
      simp [hp]
      omega
    | succ n =>
      simp only [List.getElem?_cons_succ] at h
      have hq : 0 ≤ q.amount := hpos q (List.mem_cons_self _ _)
      have hle := ih h hrest
      rw [unpaidTotal_cons]
      by_cases hpaid : q.paid <;> simp [hpaid] <;> omega

/-! ### The reachable-state invariant -/

@[simp]
theorem total_prizes_defined_unpaid_eq (g : GameState) :
    total_prizes_defined_unpaid g = unpaidTotal g.prizes := rfl

theorem Inv_initState : Inv initState := by
  refine ⟨le_refl 0, le_refl 0, ?_, ?_, ?_, ?_⟩ <;> simp [initState, cashierCount]

theorem get_cashier_id_none_count {g : GameState} (h : get_cashier_id g = none) :
    cashierCount g = 0 := by
  unfold get_cashier_id at h
  cases hf : List.find? (fun kv => decide (kv.2.role = "cassiere")) g.players with
  | some kv =>
    rw [hf] at h
    exact Option.noConfusion h
  | none =>
    rw [List.find?_eq_none] at hf
    exact List.countP_eq_zero.mpr hf

theorem get_cashier_id_some_mem {g : GameState} {cid : String}
    (h : get_cashier_id g = some cid) :
    ∃ p, (cid, p) ∈ g.players ∧ p.role = "cassiere" := by
  unfold get_cashier_id at h
  cases hf : List.find? (fun kv => decide (kv.2.role = "cassiere")) g.players with
  | none =>
    rw [hf] at h
    exact Option.noConfusion h
  | some kv =>
    obtain ⟨k, p⟩ := kv
    rw [hf] at h
    simp only [Option.map_some', Option.some.injEq] at h
    subst h
    exact ⟨p, List.mem_of_find?_eq_some hf, by simpa using List.find?_some hf⟩

theorem countP_isCashier_dictModify {k : String} {f : Player → Player}
    (hf : ∀ v, (f v).role = v.role) (d : List (String × Player)) :
    (dictModify k f d).countP isCashierEntry = d.countP isCashierEntry :=
  countP_dictModify_eq _ _ _ _ (fun v => by simp [isCashierEntry, hf])

theorem Inv_player_play (uid : Option String) (a : Option Int) (ts : Nat) {g : GameState}
    (hI : Inv g) : Inv (stepResult (player_play uid a ts g) g) := by
  obtain ⟨h1, h2, h3, h4, h5, h6⟩ := hI
  cases hrp : require_player uid g with
  | error e =>
    have hstep : stepResult (player_play uid a ts g) g = g := by
      simp [player_play, hrp, stepResult]
    rw [hstep]
    exact ⟨h1, h2, h3, h4, h5, h6⟩
  | ok pid =>
    obtain ⟨_, _, p, hp, _⟩ := require_player_ok hrp
    cases a with
    | none =>
      have hstep : stepResult (player_play uid none ts g) g = g := by
        simp [player_play, hrp, stepResult]
      rw [hstep]
      exact ⟨h1, h2, h3, h4, h5, h6⟩
    | some amount =>
      by_cases hle : amount ≤ 0
      · have hstep : stepResult (player_play uid (some amount) ts g) g = g := by
          simp [player_play, hrp, hle, stepResult]
        rw [hstep]
        exact ⟨h1, h2, h3, h4, h5, h6⟩
      · by_cases hgt : amount > p.saldo
        · have hstep : stepResult (player_play uid (some amount) ts g) g = g := by
            simp [player_play, hrp, hle, hp, hgt, stepResult]
          rw [hstep]
          exact ⟨h1, h2, h3, h4, h5, h6⟩
        · have hplayers : (stepResult (player_play uid (some amount) ts g) g).players =
              dictModify pid (fun q => { q with saldo := p.saldo - amount }) g.players := by
            simp [player_play, hrp, hle, hp, hgt, stepResult]
          have hprizes : (stepResult (player_play uid (some amount) ts g) g).prizes =
              g.prizes := by
            simp [player_play, hrp, hle, hp, hgt, stepResult]
          have hpot : (stepResult (player_play uid (some amount) ts g) g).pot =
              g.pot + amount := by
            simp [player_play, hrp, hle, hp, hgt, stepResult]
          refine ⟨?_, ?_, ?_, ?_, ?_, ?_⟩
          · rw [hpot]
            omega
          · rw [hprizes, hpot]
            omega
          · rw [hprizes]
            exact h3
          · show cashierCount _ ≤ 1
            unfold cashierCount
            have hroles : ∀ v : Player,
                ({ v with saldo := p.saldo - amount } : Player).role = v.role :=
              fun v => rfl
            rw [hplayers, countP_isCashier_dictModify hroles]
            exact h4
          · rw [hplayers, keys_dictModify]
            exact h5
          · rw [hplayers, keys_dictModify]
            exact h6

theorem Inv_cashier_credit (uid : Option String) (pidRaw : String) (a : Option Int)
    (ts : Nat) {g : GameState} (hI : Inv g) :
    Inv (stepResult (cashier_credit uid pidRaw a ts g) g) := by
  obtain ⟨h1, h2, h3, h4, h5, h6⟩ := hI
  cases hrc : require_cashier uid g with
  | error e =>
    have hstep : stepResult (cashier_credit uid pidRaw a ts g) g = g := by
      simp [cashier_credit, hrc, stepResult]
    rw [hstep]
    exact ⟨h1, h2, h3, h4, h5, h6⟩
  | ok cid =>
    by_cases h0 : pyStrip pidRaw = ""
    · have hstep : stepResult (cashier_credit uid pidRaw a ts g) g = g := by
        simp [cashier_credit, hrc, h0, stepResult]
      rw [hstep]
      exact ⟨h1, h2, h3, h4, h5, h6⟩
    · cases hd : dictGet (pyStrip pidRaw) g.players with
      | none =>
        have hstep : stepResult (cashier_credit uid pidRaw a ts g) g = g := by
          simp [cashier_credit, hrc, h0, hd, stepResult]
        rw [hstep]
        exact ⟨h1, h2, h3, h4, h5, h6⟩
      | some target =>
        by_cases hrole : target.role = "giocatore"
        · cases a with
          | none =>
            have hstep : stepResult (cashier_credit uid pidRaw none ts g) g = g := by
              simp [cashier_credit, hrc, h0, hd, hrole, stepResult]
            rw [hstep]
            exact ⟨h1, h2, h3, h4, h5, h6⟩
          | some amount =>
            by_cases hle : amount ≤ 0
            · have hstep : stepResult (cashier_credit uid pidRaw (some amount) ts g) g = g := by
                simp [cashier_credit, hrc, h0, hd, hrole, hle, stepResult]
              rw [hstep]
              exact ⟨h1, h2, h3, h4, h5, h6⟩
            · have hplayers : (stepResult (cashier_credit uid pidRaw (some amount) ts g) g).players =
                  dictModify cid (fun q => { q with saldo := q.saldo - amount })
                    (dictModify (pyStrip pidRaw) (fun q => { q with saldo := q.saldo + amount })
                      g.players) := by
                simp [cashier_credit, hrc, h0, hd, hrole, hle, stepResult]
              have hprizes : (stepResult (cashier_credit uid pidRaw (some amount) ts g) g).prizes =
                  g.prizes := by
                simp [cashier_credit, hrc, h0, hd, hrole, hle, stepResult]
              have hpot : (stepResult (cashier_credit uid pidRaw (some amount) ts g) g).pot =
                  g.pot := by
                simp [cashier_credit, hrc, h0, hd, hrole, hle, stepResult]
              have hroles1 : ∀ v : Player,
                  ({ v with saldo := v.saldo + amount } : Player).role = v.role := fun v => rfl
              have hroles2 : ∀ v : Player,
                  ({ v with saldo := v.saldo - amount } : Player).role = v.role := fun v => rfl
              refine ⟨?_, ?_, ?_, ?_, ?_, ?_⟩
              · rw [hpot]
                exact h1
              · rw [hprizes, hpot]
                exact h2
              · rw [hprizes]
                exact h3
              · show cashierCount _ ≤ 1
                unfold cashierCount
                rw [hplayers, countP_isCashier_dictModify hroles2,
                  countP_isCashier_dictModify hroles1]
                exact h4
              · rw [hplayers, keys_dictModify, keys_dictModify]
                exact h5
              · rw [hplayers, keys_dictModify, keys_dictModify]
                exact h6
        · have hstep : stepResult (cashier_credit uid pidRaw a ts g) g = g := by
            simp [cashier_credit, hrc, h0, hd, hrole, stepResult]
          rw [hstep]
          exact ⟨h1, h2, h3, h4, h5, h6⟩

theorem Inv_cashier_add_prize (uid : Option String) (nameRaw : String) (a : Option Int)
    (ts : Nat) {g : GameState} (hI : Inv g) :
    Inv (stepResult (cashier_add_prize uid nameRaw a ts g) g) := by
  obtain ⟨h1, h2, h3, h4, h5, h6⟩ := hI
  cases hrc : require_cashier uid g with
  | error e =>
    have hstep : stepResult (cashier_add_prize uid nameRaw a ts g) g = g := by
      simp [cashier_add_prize, hrc, stepResult]
    rw [hstep]
    exact ⟨h1, h2, h3, h4, h5, h6⟩
  | ok cid =>
    by_cases h0 : pyStrip nameRaw = ""
    · have hstep : stepResult (cashier_add_prize uid nameRaw a ts g) g = g := by
        simp [cashier_add_prize, hrc, h0, stepResult]
      rw [hstep]
      exact ⟨h1, h2, h3, h4, h5, h6⟩
    · cases a with
      | none =>
        have hstep : stepResult (cashier_add_prize uid nameRaw none ts g) g = g := by
          simp [cashier_add_prize, hrc, h0, stepResult]
        rw [hstep]
        exact ⟨h1, h2, h3, h4, h5, h6⟩
      | some amount =>
        by_cases hle : amount ≤ 0
        · have hstep : stepResult (cashier_add_prize uid nameRaw (some amount) ts g) g = g := by
            simp [cashier_add_prize, hrc, h0, hle, stepResult]
          rw [hstep]
          exact ⟨h1, h2, h3, h4, h5, h6⟩
        · by_cases hover : unpaidTotal g.prizes + amount > g.pot
          · have hstep : stepResult (cashier_add_prize uid nameRaw (some amount) ts g) g = g := by
              simp [cashier_add_prize, hrc, h0, hle, hover, stepResult]
            rw [hstep]
            exact ⟨h1, h2, h3, h4, h5, h6⟩
          · have hplayers : (stepResult (cashier_add_prize uid nameRaw (some amount) ts g) g).players =
                g.players := by
              simp [cashier_add_prize, hrc, h0, hle, hover, stepResult]
            have hprizes : (stepResult (cashier_add_prize uid nameRaw (some amount) ts g) g).prizes =
                g.prizes ++ [({ name := pyStrip nameRaw, amount := amount, winner_id := none, paid := false, ts := ts } : Prize)] := by
              simp [cashier_add_prize, hrc, h0, hle, hover, stepResult]
            have hpot : (stepResult (cashier_add_prize uid nameRaw (some amount) ts g) g).pot =
                g.pot := by
              simp [cashier_add_prize, hrc, h0, hle, hover, stepResult]
            have hunpaid : unpaidTotal (g.prizes ++ [({ name := pyStrip nameRaw, amount := amount, winner_id := none, paid := false, ts := ts } : Prize)]) =
                unpaidTotal g.prizes + amount := by
              rw [unpaidTotal_append, unpaidTotal_cons]
              simp
            refine ⟨?_, ?_, ?_, ?_, ?_, ?_⟩
            · rw [hpot]
              exact h1
            · rw [hprizes, hpot, hunpaid]
              omega
            · rw [hprizes]
              intro q hq
              rcases List.mem_append.mp hq with hmem | hmem
              · exact h3 q hmem
              · rw [List.mem_singleton.mp hmem]
                exact (by omega : (0 : Int) < amount)
            · show cashierCount _ ≤ 1
              unfold cashierCount
              rw [hplayers]
              exact h4
            · rw [hplayers]
              exact h5
            · rw [hplayers]
              exact h6

theorem Inv_cashier_assign_prize (uid : Option String) (idxRaw : Option Int) (wRaw : String)
    (ts : Nat) {g : GameState} (hI : Inv g) :
    Inv (stepResult (cashier_assign_prize uid idxRaw wRaw ts g) g) := by
  obtain ⟨h1, h2, h3, h4, h5, h6⟩ := hI
  cases hrc : require_cashier uid g with
  | error e =>
    have hstep : stepResult (cashier_assign_prize uid idxRaw wRaw ts g) g = g := by
      simp [cashier_assign_prize, hrc, stepResult]
    rw [hstep]
    exact ⟨h1, h2, h3, h4, h5, h6⟩
  | ok cid =>
    cases idxRaw with
    | none =>
      have hstep : stepResult (cashier_assign_prize uid none wRaw ts g) g = g := by
        simp [cashier_assign_prize, hrc, stepResult]
      rw [hstep]
      exact ⟨h1, h2, h3, h4, h5, h6⟩
    | some idx =>
      by_cases hb : idx < 0 ∨ (g.prizes.length : Int) ≤ idx
      · have hstep : stepResult (cashier_assign_prize uid (some idx) wRaw ts g) g = g := by
          simp [cashier_assign_prize, hrc, hb, stepResult]
        rw [hstep]
        exact ⟨h1, h2, h3, h4, h5, h6⟩
      · push_neg at hb
        have hnb : ¬(idx < 0 ∨ (g.prizes.length : Int) ≤ idx) := by omega
        have hilen : idx.toNat < g.prizes.length := by omega
        have hsome : g.prizes[idx.toNat]? = some (g.prizes[idx.toNat]) :=
          List.getElem?_eq_getElem hilen
        have hgetD : g.prizes[idx.toNat]?.getD defaultPrize = g.prizes[idx.toNat] := by
          rw [hsome]
          rfl
        by_cases hpaid : (g.prizes[idx.toNat]?.getD defaultPrize).paid
        · have hstep : stepResult (cashier_assign_prize uid (some idx) wRaw ts g) g = g := by
            simp [cashier_assign_prize, hrc, hnb, hpaid, stepResult]
          rw [hstep]
          exact ⟨h1, h2, h3, h4, h5, h6⟩
        · by_cases h0 : pyStrip wRaw = ""
          · have hstep : stepResult (cashier_assign_prize uid (some idx) wRaw ts g) g = g := by
              simp [cashier_assign_prize, hrc, hnb, hpaid, h0, stepResult]
            rw [hstep]
            exact ⟨h1, h2, h3, h4, h5, h6⟩
          · cases hw : dictGet (pyStrip wRaw) g.players with
            | none =>
              have hstep : stepResult (cashier_assign_prize uid (some idx) wRaw ts g) g = g := by
                simp [cashier_assign_prize, hrc, hnb, hpaid, h0, hw, stepResult]
              rw [hstep]
              exact ⟨h1, h2, h3, h4, h5, h6⟩
            | some w =>
              by_cases hrole : w.role = "giocatore"
              · by_cases hpot : g.pot < (g.prizes[idx.toNat]?.getD defaultPrize).amount
                · have hstep : stepResult (cashier_assign_prize uid (some idx) wRaw ts g) g = g := by
                    simp [cashier_assign_prize, hrc, hnb, hpaid, h0, hw, hrole, hpot, stepResult]
                  rw [hstep]
                  exact ⟨h1, h2, h3, h4, h5, h6⟩
                · have hplayers : (stepResult (cashier_assign_prize uid (some idx) wRaw ts g) g).players =
                      dictModify (pyStrip wRaw)
                        (fun q => { q with saldo :=
                          q.saldo + (g.prizes[idx.toNat]?.getD defaultPrize).amount })
                        g.players := by
                    simp [cashier_assign_prize, hrc, hnb, hpaid, h0, hw, hrole, hpot, stepResult]
                  have hprizes : (stepResult (cashier_assign_prize uid (some idx) wRaw ts g) g).prizes =
                      g.prizes.set idx.toNat
                        { g.prizes[idx.toNat]?.getD defaultPrize with
                          winner_id := some (pyStrip wRaw), paid := true } := by
                    simp [cashier_assign_prize, hrc, hnb, hpaid, h0, hw, hrole, hpot, stepResult]
                  have hpot2 : (stepResult (cashier_assign_prize uid (some idx) wRaw ts g) g).pot =
                      g.pot - (g.prizes[idx.toNat]?.getD defaultPrize).amount := by
                    simp [cashier_assign_prize, hrc, hnb, hpaid, h0, hw, hrole, hpot, stepResult]
                  have hpf : (g.prizes[idx.toNat]?.getD defaultPrize).paid = false := by
                    rwa [Bool.not_eq_true] at hpaid
                  have hprsome : g.prizes[idx.toNat]? = some (g.prizes[idx.toNat]?.getD defaultPrize) := by
                    rw [hgetD]
                    exact hsome
                  have hunpaid := unpaidTotal_set_paid (some (pyStrip wRaw)) hprsome hpf
                  have hmem : (g.prizes[idx.toNat]?.getD defaultPrize) ∈ g.prizes := by
                    rw [hgetD]
                    exact List.getElem_mem hilen
                  have hamt : 0 < (g.prizes[idx.toNat]?.getD defaultPrize).amount := h3 _ hmem
                  have hle : (g.prizes[idx.toNat]?.getD defaultPrize).amount ≤ unpaidTotal g.prizes :=
                    amount_le_unpaidTotal hprsome hpf (fun q hq => le_of_lt (h3 q hq))
                  refine ⟨?_, ?_, ?_, ?_, ?_, ?_⟩
                  · rw [hpot2]
                    omega
                  · rw [hprizes, hpot2, hunpaid]
                    omega
                  · rw [hprizes]
                    intro q hq
                    rcases List.mem_or_eq_of_mem_set hq with hmem2 | heq2
                    · exact h3 q hmem2
                    · rw [heq2]
                      exact hamt
                  · show cashierCount _ ≤ 1
                    unfold cashierCount
                    have hroles : ∀ v : Player,
                        ({ v with saldo :=
                          v.saldo + (g.prizes[idx.toNat]?.getD defaultPrize).amount } : Player).role =
                          v.role := fun v => rfl
                    rw [hplayers, countP_isCashier_dictModify hroles]
                    exact h4
                  · rw [hplayers, keys_dictModify]
                    exact h5
                  · rw [hplayers, keys_dictModify]
                    exact h6
              · have hstep : stepResult (cashier_assign_prize uid (some idx) wRaw ts g) g = g := by
                  simp [cashier_assign_prize, hrc, hnb, hpaid, h0, hw, hrole, stepResult]
                rw [hstep]
                exact ⟨h1, h2, h3, h4, h5, h6⟩

theorem Inv_joinState (fresh nameRaw roleRaw pinRaw : String) (ts : Nat) {g : GameState}
    (hfresh : fresh ≠ "") (hI : Inv g) :
    Inv (stepResult (opResult (.opJoin fresh nameRaw roleRaw pinRaw ts) g) g) := by
  obtain ⟨h1, h2, h3, h4, h5, h6⟩ := hI
  have hcreate : ∀ role : String, role ≠ "cassiere" →
      Inv (stepResult (match joinCreate fresh (pyStrip nameRaw) role ts g with
        | .ok r => .ok r.1
        | .error e => .error e) g) := by
    intro role hrole
    have hplayers : (stepResult (match joinCreate fresh (pyStrip nameRaw) role ts g with
        | .ok r => (.ok r.1 : Except ApiError GameState)
        | .error e => .error e) g).players =
        dictSet fresh { name := pyStrip nameRaw, role := role, saldo := 0 } g.players := by
      simp [joinCreate, stepResult]
    have hprizes : (stepResult (match joinCreate fresh (pyStrip nameRaw) role ts g with
        | .ok r => (.ok r.1 : Except ApiError GameState)
        | .error e => .error e) g).prizes = g.prizes := by
      simp [joinCreate, stepResult]
    have hpot : (stepResult (match joinCreate fresh (pyStrip nameRaw) role ts g with
        | .ok r => (.ok r.1 : Except ApiError GameState)
        | .error e => .error e) g).pot = g.pot := by
      simp [joinCreate, stepResult]
    refine ⟨?_, ?_, ?_, ?_, ?_, ?_⟩
    · rw [hpot]
      exact h1
    · rw [hprizes, hpot]
      exact h2
    · rw [hprizes]
      exact h3
    · show cashierCount _ ≤ 1
      unfold cashierCount
      rw [hplayers]
      have hne : isCashierEntry (fresh, { name := pyStrip nameRaw, role := role, saldo := 0 }) = false := by
        simp [isCashierEntry, hrole]
      exact le_trans (countP_dictSet_of_neg hne g.players) h4
    · rw [hplayers]
      exact nodup_keys_dictSet h5
    · rw [hplayers]
      intro hmem
      rcases mem_keys_dictSet.mp hmem with hm | he
      · exact h6 hm
      · exact hfresh he.symm
  have hcreateC : get_cashier_id g = none →
      Inv (stepResult (match joinCreate fresh (pyStrip nameRaw) "cassiere" ts g with
        | .ok r => .ok r.1
        | .error e => .error e) g) := by
    intro hex
    have hplayers : (stepResult (match joinCreate fresh (pyStrip nameRaw) "cassiere" ts g with
        | .ok r => (.ok r.1 : Except ApiError GameState)
        | .error e => .error e) g).players =
        dictSet fresh { name := pyStrip nameRaw, role := "cassiere", saldo := 0 } g.players := by
      simp [joinCreate, stepResult]
    have hprizes : (stepResult (match joinCreate fresh (pyStrip nameRaw) "cassiere" ts g with
        | .ok r => (.ok r.1 : Except ApiError GameState)
        | .error e => .error e) g).prizes = g.prizes := by
      simp [joinCreate, stepResult]
    have hpot : (stepResult (match joinCreate fresh (pyStrip nameRaw) "cassiere" ts g with
        | .ok r => (.ok r.1 : Except ApiError GameState)
        | .error e => .error e) g).pot = g.pot := by
      simp [joinCreate, stepResult]
    refine ⟨?_, ?_, ?_, ?_, ?_, ?_⟩
    · rw [hpot]
      exact h1
    · rw [hprizes, hpot]
      exact h2
    · rw [hprizes]
      exact h3
    · show cashierCount _ ≤ 1
      unfold cashierCount
      rw [hplayers]
      have hzero : g.players.countP isCashierEntry = 0 := get_cashier_id_none_count hex
      have := countP_dictSet_le isCashierEntry fresh
        { name := pyStrip nameRaw, role := "cassiere", saldo := 0 } g.players
      omega
    · rw [hplayers]
      exact nodup_keys_dictSet h5
    · rw [hplayers]
      intro hmem
      rcases mem_keys_dictSet.mp hmem with hm | he
      · exact h6 hm
      · exact hfresh he.symm
  simp only [opResult, join]
  by_cases hname : pyStrip nameRaw = ""
  · simp only [hname, if_true, eq_self_iff_true, reduceIte]
    exact ⟨h1, h2, h3, h4, h5, h6⟩
  · rw [if_neg hname]
    by_cases hv : pyStrip roleRaw ≠ "giocatore" ∧ pyStrip roleRaw ≠ "cassiere"
    · rw [if_pos hv]
      exact ⟨h1, h2, h3, h4, h5, h6⟩
    · rw [if_neg hv]
      by_cases hcas : pyStrip roleRaw = "cassiere"
      · rw [if_pos hcas]
        by_cases hpin : pyStrip pinRaw ≠ CASHIER_PIN
        · rw [if_pos hpin]
          exact ⟨h1, h2, h3, h4, h5, h6⟩
        · rw [if_neg hpin, hcas]
          cases hex : get_cashier_id g with
          | none => exact hcreateC hex
          | some existing =>
            by_cases hee : existing = ""
            · exfalso
              obtain ⟨p, hmem, _⟩ := get_cashier_id_some_mem hex
              apply h6
              rw [← hee]
              exact List.mem_map.mpr ⟨(existing, p), hmem, rfl⟩
            · have hroles : ∀ v : Player,
                  ({ v with name := pyStrip nameRaw } : Player).role = v.role := fun v => rfl
              refine ⟨?_, ?_, ?_, ?_, ?_, ?_⟩
              · simpa [stepResult, hee] using h1
              · simpa [stepResult, hee] using h2
              · simpa [stepResult, hee] using h3
              · show cashierCount _ ≤ 1
                unfold cashierCount
                simp only [stepResult, hee, add_log_players, ite_false, Bool.false_eq_true,
                  if_false, eq_self_iff_true, not_false_eq_true, reduceIte]
                rw [countP_isCashier_dictModify hroles]
                exact h4
              · simp only [stepResult, hee, add_log_players, keys_dictModify, ite_false,
                  Bool.false_eq_true, if_false, eq_self_iff_true, not_false_eq_true, reduceIte]
                exact h5
              · simp only [stepResult, hee, add_log_players, keys_dictModify, ite_false,
                  Bool.false_eq_true, if_false, eq_self_iff_true, not_false_eq_true, reduceIte]
                exact h6
      · rw [if_neg hcas]
        exact hcreate _ hcas

theorem Inv_cashier_reset_players (uid : Option String) (ts : Nat) {g : GameState}
    (hI : Inv g) : Inv (stepResult (cashier_reset_players uid ts g) g) := by
  obtain ⟨h1, h2, h3, h4, h5, h6⟩ := hI
  cases hrc : require_cashier uid g with
  | error e =>
    have hstep : stepResult (cashier_reset_players uid ts g) g = g := by
      simp [cashier_reset_players, hrc, stepResult]
    rw [hstep]
    exact ⟨h1, h2, h3, h4, h5, h6⟩
  | ok cid =>
    have hplayers : (stepResult (cashier_reset_players uid ts g) g).players =
        (if (dictGet cid (((g.players.filter (fun kv => decide (kv.2.role = "giocatore"))).map Prod.fst).foldl (fun d u => dictRemove u d) g.players)).isSome then
          dictModify cid (fun p => { p with saldo := 0 }) (((g.players.filter (fun kv => decide (kv.2.role = "giocatore"))).map Prod.fst).foldl (fun d u => dictRemove u d) g.players)
        else ((g.players.filter (fun kv => decide (kv.2.role = "giocatore"))).map Prod.fst).foldl (fun d u => dictRemove u d) g.players) := by
      simp only [cashier_reset_players, hrc, stepResult]
      split <;> rfl
    have hprizes : (stepResult (cashier_reset_players uid ts g) g).prizes = [] := by
      simp only [cashier_reset_players, hrc, stepResult]
      split <;> rfl
    have hpot : (stepResult (cashier_reset_players uid ts g) g).pot = 0 := by
      simp only [cashier_reset_players, hrc, stepResult]
      split <;> rfl
    have hroles : ∀ v : Player, ({ v with saldo := 0 } : Player).role = v.role := fun v => rfl
    refine ⟨?_, ?_, ?_, ?_, ?_, ?_⟩
    · rw [hpot]
    · rw [hprizes, hpot]
      simp
    · rw [hprizes]
      intro q hq
      simp at hq
    · show cashierCount _ ≤ 1
      unfold cashierCount
      rw [hplayers]
      split
      · rw [countP_isCashier_dictModify hroles]
        exact le_trans (List.Sublist.countP_le _ (foldl_dictRemove_sublist _ _)) h4
      · exact le_trans (List.Sublist.countP_le _ (foldl_dictRemove_sublist _ _)) h4
    · rw [hplayers]
      split
      · rw [keys_dictModify]
        exact List.Nodup.sublist ((foldl_dictRemove_sublist _ _).map Prod.fst) h5
      · exact List.Nodup.sublist ((foldl_dictRemove_sublist _ _).map Prod.fst) h5
    · rw [hplayers]
      split
      · rw [keys_dictModify]
        intro hmem
        exact h6 (((foldl_dictRemove_sublist _ _).map Prod.fst).subset hmem)
      · intro hmem
        exact h6 (((foldl_dictRemove_sublist _ _).map Prod.fst).subset hmem)

theorem Inv_cashier_logout (uid : Option String) (ts : Nat) {g : GameState}
    (hI : Inv g) : Inv (stepResult (cashier_logout uid ts g) g) := by
  obtain ⟨h1, h2, h3, h4, h5, h6⟩ := hI
  cases hrc : require_cashier uid g with
  | error e =>
    have hstep : stepResult (cashier_logout uid ts g) g = g := by
      simp [cashier_logout, hrc, stepResult]
    rw [hstep]
    exact ⟨h1, h2, h3, h4, h5, h6⟩
  | ok cid =>
    have hplayers : (stepResult (cashier_logout uid ts g) g).players =
        dictRemove cid g.players := by
      simp [cashier_logout, hrc, stepResult]
    have hprizes : (stepResult (cashier_logout uid ts g) g).prizes = g.prizes := by
      simp [cashier_logout, hrc, stepResult]
    have hpot : (stepResult (cashier_logout uid ts g) g).pot = g.pot := by
      simp [cashier_logout, hrc, stepResult]
    refine ⟨?_, ?_, ?_, ?_, ?_, ?_⟩
    · rw [hpot]
      exact h1
    · rw [hprizes, hpot]
      exact h2
    · rw [hprizes]
      exact h3
    · show cashierCount _ ≤ 1
      unfold cashierCount
      rw [hplayers]
      exact le_trans (List.Sublist.countP_le _ (dictRemove_sublist _ _)) h4
    · rw [hplayers]
      exact List.Nodup.sublist ((dictRemove_sublist _ _).map Prod.fst) h5
    · rw [hplayers]
      intro hmem
      exact h6 (((dictRemove_sublist _ _).map Prod.fst).subset hmem)

theorem Inv_apply (o : Op) {g : GameState} (hI : Inv g) : Inv (apply o g) := by
  cases o with
  | opJoin fresh n r p ts =>
    by_cases hfresh : fresh = ""
    · simp only [apply, hfresh, if_true, eq_self_iff_true, reduceIte]
      exact hI
    · simp only [apply, hfresh, ite_false, Bool.false_eq_true, if_false, eq_self_iff_true,
        not_false_eq_true, reduceIte]
      exact Inv_joinState fresh n r p ts hfresh hI
  | opPlay uid a ts => exact Inv_player_play uid a ts hI
  | opCredit uid pid a ts => exact Inv_cashier_credit uid pid a ts hI
  | opAddPrize uid name a ts => exact Inv_cashier_add_prize uid name a ts hI
  | opAssignPrize uid idx w ts => exact Inv_cashier_assign_prize uid idx w ts hI
  | opReset uid ts => exact Inv_cashier_reset_players uid ts hI
  | opLogout uid ts => exact Inv_cashier_logout uid ts hI

theorem Inv_run (ops : List Op) {g : GameState} (hI : Inv g) : Inv (run ops g) := by
  induction ops generalizing g with
  | nil => exact hI
  | cons o ops ih => exact ih (Inv_apply o hI)

theorem reachable_Inv {g : GameState} (h : Reachable g) : Inv g := by
  obtain ⟨ops, rfl⟩ := h
  exact Inv_run ops Inv_initState

/-! ### View projection lemmas -/

theorem mem_players_public_iff {viewer_id : Option String} {g : GameState}
    {item : PublicPlayer} :
    item ∈ players_public_for viewer_id g ↔
      ∃ kv, kv ∈ g.players ∧
        item = { id := kv.1, name := kv.2.name, role := kv.2.role,
                 saldo := publicSaldo viewer_id g kv } := by
  unfold players_public_for
  rw [(List.mergeSort_perm _ _).mem_iff]
  simp only [List.mem_map]
  constructor
  · rintro ⟨kv, hm, rfl⟩
    exact ⟨kv, hm, rfl⟩
  · rintro ⟨kv, hm, rfl⟩
    exact ⟨kv, hm, rfl⟩

theorem public_state_for_players (viewer_id : Option String) (g : GameState) :
    (public_state_for viewer_id g).players = players_public_for viewer_id g := rfl

theorem public_state_for_prizes (viewer_id : Option String) (g : GameState) :
    (public_state_for viewer_id g).prizes =
      (if (viewerOf viewer_id g).map Player.role = some "cassiere" then g.prizes
       else if (viewerOf viewer_id g).map Player.role = some "giocatore" then
         g.prizes.filter (fun p => !p.paid)
       else []) := rfl

theorem dictGet_add_ledger_delta_self (uid : String) (delta : Int) (note : String)
    (ts : Nat) (g : GameState) :
    ∃ rest, dictGet uid (add_ledger_delta uid delta note ts g).ledger =
      some (({ delta := delta, note := note, ts := ts } : LedgerEntry) :: rest) := by
  unfold add_ledger_delta ensure_ledger
  by_cases h : (dictGet uid g.ledger).isSome = true
  · obtain ⟨l, hl⟩ := Option.isSome_iff_exists.mp h
    rw [if_pos h]
    refine ⟨l.take 1499, ?_⟩
    show dictGet uid (dictModify uid
      (fun l => (({ delta := delta, note := note, ts := ts } : LedgerEntry) :: l).take 1500)
      g.ledger) = _
    rw [dictGet_dictModify_self _ hl, show (1500 : Nat) = 1499 + 1 from rfl,
      List.take_succ_cons]
  · rw [if_neg h]
    have h0 : dictGet uid (dictSet uid ([] : List LedgerEntry) g.ledger) = some [] :=
      dictGet_dictSet_self uid [] g.ledger
    refine ⟨[], ?_⟩
    show dictGet uid (dictModify uid
      (fun l => (({ delta := delta, note := note, ts := ts } : LedgerEntry) :: l).take 1500)
      (dictSet uid ([] : List LedgerEntry) g.ledger)) = _
    rw [dictGet_dictModify_self _ h0, show (1500 : Nat) = 1499 + 1 from rfl,
      List.take_succ_cons, List.take_nil]

/-! ### The claims -/

/-- C1 counterexample: in the reachable state where the cashier "c" and the
player "p" are registered (both with balance 0), the Credit of 50 from the
cashier to the player succeeds, yet the total value (sum of all participants'
balances plus the pot) stays exactly the same (0), not changed by the credited
amount 50: a credit is an internal transfer from the cashier's balance. -/
theorem C1_counterexample :
    (match cashier_credit (some "c") "p" (some 50) 2 (run [Op.opJoin "c" "Boss" "cassiere" "4321" 0, Op.opJoin "p" "Anna" "giocatore" "" 1] initState) with
      | Except.ok _ => true
      | Except.error _ => false) = true ∧
    totalValue (apply (Op.opCredit (some "c") "p" (some 50) 2) (run [Op.opJoin "c" "Boss" "cassiere" "4321" 0, Op.opJoin "p" "Anna" "giocatore" "" 1] initState)) =
      totalValue (run [Op.opJoin "c" "Boss" "cassiere" "4321" 0, Op.opJoin "p" "Anna" "giocatore" "" 1] initState) ∧
    totalValue (run [Op.opJoin "c" "Boss" "cassiere" "4321" 0, Op.opJoin "p" "Anna" "giocatore" "" 1] initState) = 0 := by
  refine ⟨by decide, by decide, by decide⟩

/-- C1 (amended): for every sequence of Wager, Credit, and AssignPrize
operations applied to any state, the total value in the system (the sum of
all participants' balances plus the pot) is invariant: a Wager moves value
from the player into the pot, an AssignPrize moves value from the pot to the
winner, and a Credit transfers value from the cashier's balance to the
player's balance, so none of the three changes the total. -/
theorem C1_total_value_invariant (g : GameState) (ops : List Op)
    (h : ∀ o ∈ ops, isWCA o) : totalValue (run ops g) = totalValue g := by
  induction ops generalizing g with
  | nil => rfl
  | cons o rest ih =>
    have ho := h o (List.mem_cons_self _ _)
    have hrest : ∀ o' ∈ rest, isWCA o' := fun o' h' => h o' (List.mem_cons_of_mem _ h')
    have hstep : totalValue (apply o g) = totalValue g := by
      cases o with
      | opPlay uid a ts => exact totalValue_player_play uid a ts g
      | opCredit uid pid a ts => exact totalValue_cashier_credit uid pid a ts g
      | opAssignPrize uid idx w ts => exact totalValue_cashier_assign_prize uid idx w ts g
      | opJoin f n r p ts => exact absurd ho (by simp [isWCA])
      | opAddPrize uid n a ts => exact absurd ho (by simp [isWCA])
      | opReset uid ts => exact absurd ho (by simp [isWCA])
      | opLogout uid ts => exact absurd ho (by simp [isWCA])
    calc totalValue (run rest (apply o g)) = totalValue (apply o g) := ih _ hrest
      _ = totalValue g := hstep

/-- C1 (amended) witness: a concrete Wager of 5 by the registered player
leaves the total value of the concrete two-participant state unchanged. -/
theorem C1_total_value_invariant_witness :
    totalValue (run [Op.opPlay (some "p") (some 5) 3] (run [Op.opJoin "c" "Boss" "cassiere" "4321" 0, Op.opJoin "p" "Anna" "giocatore" "" 1, Op.opCredit (some "c") "p" (some 50) 2] initState)) =
      totalValue (run [Op.opJoin "c" "Boss" "cassiere" "4321" 0, Op.opJoin "p" "Anna" "giocatore" "" 1, Op.opCredit (some "c") "p" (some 50) 2] initState) := by
  refine C1_total_value_invariant _ _ ?_
  intro o ho
  rw [List.mem_singleton] at ho
  subst ho
  trivial

/-- C2: in every reachable state, the sum of the amounts of all unpaid prizes
is at most the pot, and this inequality is preserved by every further engine
operation even though the code checks it only at prize-creation time. -/
theorem C2_escrow_sufficiency {g : GameState} (hg : Reachable g) :
    total_prizes_defined_unpaid g ≤ g.pot ∧
    ∀ o : Op, total_prizes_defined_unpaid (apply o g) ≤ (apply o g).pot := by
  have hI := reachable_Inv hg
  refine ⟨by simpa using hI.2.1, fun o => ?_⟩
  have hI2 := Inv_apply o hI
  simpa using hI2.2.1

/-- C2 witness: after joining a cashier and a player, crediting 50, wagering
30 and defining the prize "Tombola" worth 30, the unpaid total is within the
pot. -/
theorem C2_escrow_sufficiency_witness :
    total_prizes_defined_unpaid (run [Op.opJoin "c" "Boss" "cassiere" "4321" 0, Op.opJoin "p" "Anna" "giocatore" "" 1, Op.opCredit (some "c") "p" (some 50) 2, Op.opPlay (some "p") (some 30) 3, Op.opAddPrize (some "c") "Tombola" (some 30) 4] initState) ≤
      (run [Op.opJoin "c" "Boss" "cassiere" "4321" 0, Op.opJoin "p" "Anna" "giocatore" "" 1, Op.opCredit (some "c") "p" (some 50) 2, Op.opPlay (some "p") (some 30) 3, Op.opAddPrize (some "c") "Tombola" (some 30) 4] initState).pot :=
  (C2_escrow_sufficiency ⟨_, rfl⟩).1

/-- C3: in every reachable state the defensive pot check of AssignPrize never
fires: whenever the prize index resolves to an existing unpaid prize, that
prize's amount is at most the pot, and `cashier_assign_prize` never returns
the InsufficientPot error (status 400, "Montepremi insufficiente per pagare
questo premio"). -/
theorem C3_insufficient_pot_unreachable {g : GameState} (hg : Reachable g)
    (uid : Option String) (idxRaw : Option Int) (wRaw : String) (ts : Nat) :
    (∀ idx : Int, idxRaw = some idx → ¬(idx < 0 ∨ (g.prizes.length : Int) ≤ idx) →
      (g.prizes[idx.toNat]?.getD defaultPrize).paid = false →
      (g.prizes[idx.toNat]?.getD defaultPrize).amount ≤ g.pot) ∧
    cashier_assign_prize uid idxRaw wRaw ts g ≠
      Except.error ⟨400, "Montepremi insufficiente per pagare questo premio"⟩ := by
  obtain ⟨h1, h2, h3, h4, h5, h6⟩ := reachable_Inv hg
  have hmain : ∀ idx : Int, idxRaw = some idx → ¬(idx < 0 ∨ (g.prizes.length : Int) ≤ idx) →
      (g.prizes[idx.toNat]?.getD defaultPrize).paid = false →
      (g.prizes[idx.toNat]?.getD defaultPrize).amount ≤ g.pot := by
    intro idx hidx hb hpf
    have hb2 : ¬(idx < 0 ∨ (g.prizes.length : Int) ≤ idx) := hb
    push_neg at hb2
    have hilen : idx.toNat < g.prizes.length := by omega
    have hsome : g.prizes[idx.toNat]? = some (g.prizes[idx.toNat]) :=
      List.getElem?_eq_getElem hilen
    have hprsome : g.prizes[idx.toNat]? = some (g.prizes[idx.toNat]?.getD defaultPrize) := by
      rw [hsome]
      rfl
    have hle := amount_le_unpaidTotal hprsome hpf (fun q hq => le_of_lt (h3 q hq))
    omega
  refine ⟨hmain, ?_⟩
  cases hrc : require_cashier uid g with
  | error e =>
    have : e.status = 403 := by
      cases uid with
      | none =>
        simp only [require_cashier] at hrc
        injection hrc with h
        rw [← h]
      | some s =>
        simp only [require_cashier] at hrc
        split at hrc
        · injection hrc with h
          rw [← h]
        · split at hrc
          · injection hrc with h
            rw [← h]
          · split at hrc
            · exact absurd hrc (by simp)
            · injection hrc with h
              rw [← h]
    simp [cashier_assign_prize, hrc]
    intro hcontra
    rw [hcontra] at this
    simp at this
  | ok cid =>
    cases idxRaw with
    | none => simp [cashier_assign_prize, hrc]
    | some idx =>
      by_cases hb : idx < 0 ∨ (g.prizes.length : Int) ≤ idx
      · simp [cashier_assign_prize, hrc, hb]
      · by_cases hpaid : (g.prizes[idx.toNat]?.getD defaultPrize).paid
        · simp [cashier_assign_prize, hrc, hb, hpaid]
        · by_cases h0 : pyStrip wRaw = ""
          · simp [cashier_assign_prize, hrc, hb, hpaid, h0]
          · cases hw : dictGet (pyStrip wRaw) g.players with
            | none => simp [cashier_assign_prize, hrc, hb, hpaid, h0, hw]
            | some w =>
              by_cases hrole : w.role = "giocatore"
              · have hpf : (g.prizes[idx.toNat]?.getD defaultPrize).paid = false := by
                  rwa [Bool.not_eq_true] at hpaid
                have hle := hmain idx rfl hb hpf
                have hpot : ¬ g.pot < (g.prizes[idx.toNat]?.getD defaultPrize).amount := by
                  omega
                simp [cashier_assign_prize, hrc, hb, hpaid, h0, hw, hrole, hpot]
              · simp [cashier_assign_prize, hrc, hb, hpaid, h0, hw, hrole]

/-- C3 witness: on the concrete reachable state with one unpaid prize worth
the whole pot, assigning it does not hit the InsufficientPot branch. -/
theorem C3_insufficient_pot_unreachable_witness :
    cashier_assign_prize (some "c") (some 0) "p" 5 (run [Op.opJoin "c" "Boss" "cassiere" "4321" 0, Op.opJoin "p" "Anna" "giocatore" "" 1, Op.opCredit (some "c") "p" (some 50) 2, Op.opPlay (some "p") (some 30) 3, Op.opAddPrize (some "c") "Tombola" (some 30) 4] initState) ≠
      Except.error ⟨400, "Montepremi insufficiente per pagare questo premio"⟩ :=
  (C3_insufficient_pot_unreachable ⟨_, rfl⟩ (some "c") (some 0) "p" 5).2

/-- C10: the pot is non-negative in every state reachable from the initial
state through the engine operations. -/
theorem C10_pot_nonneg {g : GameState} (hg : Reachable g) : 0 ≤ g.pot :=
  (reachable_Inv hg).1

/-- C10 witness: the pot of the concrete reachable state after a credit of 50
and a wager of 30 is non-negative. -/
theorem C10_pot_nonneg_witness :
    0 ≤ (run [Op.opJoin "c" "Boss" "cassiere" "4321" 0, Op.opJoin "p" "Anna" "giocatore" "" 1, Op.opCredit (some "c") "p" (some 50) 2, Op.opPlay (some "p") (some 30) 3] initState).pot :=
  C10_pot_nonneg ⟨_, rfl⟩

/-- C7: every engine operation that returns a failure leaves the entire state
unchanged — no participant, balance, ledger, prize, pot, activity-log or
broadcast-counter mutation (in the source, every error return precedes the
first mutation of `GAME`). -/
theorem C7_failure_no_side_effects (o : Op) (g : GameState) :
    (∃ e, opResult o g = .error e) → apply o g = g := by
  rintro ⟨e, he⟩
  cases o with
  | opJoin fresh n r p ts =>
    by_cases hf : fresh = ""
    · simp only [apply]
      rw [if_pos hf]
    · simp only [apply]
      rw [if_neg hf, he]
      rfl
  | opPlay uid a ts =>
    simp only [apply, opResult] at he ⊢
    rw [he]
    rfl
  | opCredit uid pid a ts =>
    simp only [apply, opResult] at he ⊢
    rw [he]
    rfl
  | opAddPrize uid n a ts =>
    simp only [apply, opResult] at he ⊢
    rw [he]
    rfl
  | opAssignPrize uid idx w ts =>
    simp only [apply, opResult] at he ⊢
    rw [he]
    rfl
  | opReset uid ts =>
    simp only [apply, opResult] at he ⊢
    rw [he]
    rfl
  | opLogout uid ts =>
    simp only [apply, opResult] at he ⊢
    rw [he]
    rfl

/-- C7 witness: a Wager attempt by an unregistered caller fails and leaves
the initial state untouched. -/
theorem C7_failure_no_side_effects_witness :
    apply (Op.opPlay none none 0) initState = initState :=
  C7_failure_no_side_effects _ _ ⟨⟨403, "Non autorizzato"⟩, rfl⟩

/-- C5: Wager(playerId, amount) fails with 403 (Forbidden) if the caller is
not a registered participant with role player; given a registered player it
fails with 400 if the amount is missing/non-positive (InvalidAmount) or
exceeds the balance (InsufficientBalance); on success it decreases the
player's balance by exactly the amount, leaves other balances unchanged,
increases the pot by exactly the amount, and prepends a ledger entry with
delta -amount and note "Gioca" for that player. -/
theorem C5_wager (g : GameState) (uid : Option String) (a : Option Int) (ts : Nat) :
    (¬ RegisteredAs "giocatore" uid g →
      ∃ e, player_play uid a ts g = .error e ∧ e.status = 403) ∧
    (∀ pid, require_player uid g = .ok pid →
      (a = none → player_play uid a ts g = .error ⟨400, "Importo non valido"⟩) ∧
      (∀ v, a = some v → v ≤ 0 →
        player_play uid a ts g = .error ⟨400, "Importo deve essere > 0"⟩) ∧
      (∀ v p, a = some v → 0 < v → dictGet pid g.players = some p → p.saldo < v →
        player_play uid a ts g = .error ⟨400, "Importo superiore al saldo disponibile"⟩) ∧
      (∀ v p, a = some v → 0 < v → dictGet pid g.players = some p → v ≤ p.saldo →
        ∃ g', player_play uid a ts g = .ok g' ∧
          dictGet pid g'.players = some { p with saldo := p.saldo - v } ∧
          (∀ u, u ≠ pid → dictGet u g'.players = dictGet u g.players) ∧
          g'.pot = g.pot + v ∧
          (∃ rest, dictGet pid g'.ledger =
            some (({ delta := -v, note := "Gioca", ts := ts } : LedgerEntry) :: rest)))) := by
  constructor
  · intro hreg
    obtain ⟨e, he, hst⟩ := require_player_error_of_not_registered hreg
    exact ⟨e, by simp [player_play, he], hst⟩
  · intro pid hok
    refine ⟨?_, ?_, ?_, ?_⟩
    · intro ha
      subst ha
      simp [player_play, hok]
    · intro v ha hv
      subst ha
      simp [player_play, hok, hv]
    · intro v p ha hv hp hlt
      subst ha
      have hgt : v > p.saldo := hlt
      simp [player_play, hok, hp, not_le.mpr hv, hgt]
    · intro v p ha hv hp hle
      subst ha
      have hnle : ¬ v ≤ 0 := not_le.mpr hv
      have hngt : ¬ v > p.saldo := not_lt.mpr hle
      have hex : ∃ g', player_play uid (some v) ts g = .ok g' := by
        simp [player_play, hok, hp, hnle, hngt]
      obtain ⟨g', hg'⟩ := hex
      have hgs : stepResult (player_play uid (some v) ts g) g = g' := by
        rw [hg']
        rfl
      have hplayers : g'.players =
          dictModify pid (fun q => { q with saldo := p.saldo - v }) g.players := by
        rw [← hgs]
        simp [player_play, hok, hp, hnle, hngt, stepResult]
      have hpot2 : g'.pot = g.pot + v := by
        rw [← hgs]
        simp [player_play, hok, hp, hnle, hngt, stepResult]
      have hledger : g'.ledger = (add_ledger_delta pid (-v) "Gioca" ts
          { g with players := dictModify pid (fun q => { q with saldo := p.saldo - v }) g.players }).ledger := by
        rw [← hgs]
        simp [player_play, hok, hp, hnle, hngt, stepResult]
      refine ⟨g', hg', ?_, ?_, hpot2, ?_⟩
      · rw [hplayers, dictGet_dictModify_self _ hp]
      · intro u hu
        rw [hplayers]
        exact dictGet_dictModify_ne hu _ _
      · rw [hledger]
        exact dictGet_add_ledger_delta_self pid (-v) "Gioca" ts _

/-- C4: in every reachable state at most one participant has role cashier,
and a Join with role=cashier, a non-empty name and the correct PIN, while a
cashier already exists, renames the existing cashier in place: it returns
the existing id with the updated display name, keeps the id list of the
registry unchanged (no new participant), keeps every other entry and the
cashier's balance, and leaves the ledger store untouched. -/
theorem C4_single_cashier {g : GameState} (hg : Reachable g) :
    cashierCount g ≤ 1 ∧
    ∀ (fresh nameRaw pinRaw : String) (ts : Nat) (cid : String),
      get_cashier_id g = some cid → pyStrip nameRaw ≠ "" → pyStrip pinRaw = "4321" →
      ∃ g', join fresh nameRaw "cassiere" pinRaw ts g =
          .ok (g', cid, pyStrip nameRaw, "cassiere") ∧
        g'.players.map Prod.fst = g.players.map Prod.fst ∧
        (∃ p, dictGet cid g.players = some p ∧ p.role = "cassiere" ∧
          dictGet cid g'.players = some { p with name := pyStrip nameRaw }) ∧
        (∀ u, u ≠ cid → dictGet u g'.players = dictGet u g.players) ∧
        g'.ledger = g.ledger ∧ g'.prizes = g.prizes ∧ g'.pot = g.pot := by
  obtain ⟨h1, h2, h3, h4, h5, h6⟩ := reachable_Inv hg
  refine ⟨h4, ?_⟩
  intro fresh nameRaw pinRaw ts cid hcid hname hpin
  obtain ⟨p, hmem, hrole⟩ := get_cashier_id_some_mem hcid
  have hget : dictGet cid g.players = some p := mem_nodup_dictGet hmem h5
  have hcne : cid ≠ "" := by
    intro he
    apply h6
    rw [← he]
    exact List.mem_map.mpr ⟨(cid, p), hmem, rfl⟩
  have hrolestrip : pyStrip "cassiere" = "cassiere" := rfl
  have hpin2 : ¬ pyStrip pinRaw ≠ CASHIER_PIN := by
    rw [hpin]
    simp [CASHIER_PIN]
  have hex : ∃ g', join fresh nameRaw "cassiere" pinRaw ts g =
      .ok (g', cid, pyStrip nameRaw, "cassiere") := by
    simp [join, hrolestrip, hname, hpin2, hcid, hcne]
  obtain ⟨g', hg'⟩ := hex
  have hgs : stepResult (opResult (Op.opJoin fresh nameRaw "cassiere" pinRaw ts) g) g = g' := by
    simp [opResult, hg', stepResult]
  have hplayers : g'.players =
      dictModify cid (fun q => { q with name := pyStrip nameRaw }) g.players := by
    rw [← hgs]
    simp [opResult, join, hrolestrip, hname, hpin2, hcid, hcne, stepResult]
  have hledger : g'.ledger = g.ledger := by
    rw [← hgs]
    simp [opResult, join, hrolestrip, hname, hpin2, hcid, hcne, stepResult]
  have hprizes : g'.prizes = g.prizes := by
    rw [← hgs]
    simp [opResult, join, hrolestrip, hname, hpin2, hcid, hcne, stepResult]
  have hpot : g'.pot = g.pot := by
    rw [← hgs]
    simp [opResult, join, hrolestrip, hname, hpin2, hcid, hcne, stepResult]
  refine ⟨g', hg', ?_, ⟨p, hget, hrole, ?_⟩, ?_, hledger, hprizes, hpot⟩
  · rw [hplayers, keys_dictModify]
  · rw [hplayers, dictGet_dictModify_self _ hget]
  · intro u hu
    rw [hplayers]
    exact dictGet_dictModify_ne hu _ _

/-- C4 witness: a second cashier join with the correct PIN on the concrete
state that already has cashier "c" keeps at most one cashier and returns the
existing id "c". -/
theorem C4_single_cashier_witness :
    cashierCount (run [Op.opJoin "c" "Boss" "cassiere" "4321" 0] initState) ≤ 1 ∧
    ∃ g', join "x" "NewBoss" "cassiere" "4321" 5 (run [Op.opJoin "c" "Boss" "cassiere" "4321" 0] initState) =
      .ok (g', "c", pyStrip "NewBoss", "cassiere") := by
  have h := C4_single_cashier ⟨[Op.opJoin "c" "Boss" "cassiere" "4321" 0], rfl⟩
  refine ⟨h.1, ?_⟩
  obtain ⟨g', hj, -⟩ := h.2 "x" "NewBoss" "4321" 5 "c" (by rfl) (by decide) (by rfl)
  exact ⟨g', hj⟩

theorem assign_ok_paid {uid : Option String} {idxRaw : Option Int} {wRaw : String}
    {ts : Nat} {g g' : GameState}
    (h : cashier_assign_prize uid idxRaw wRaw ts g = .ok g') :
    ∃ idx : Int, idxRaw = some idx ∧ 0 ≤ idx ∧ idx.toNat < g.prizes.length ∧
      g'.prizes.length = g.prizes.length ∧
      (g'.prizes[idx.toNat]?.getD defaultPrize).paid = true := by
  cases hrc : require_cashier uid g with
  | error e => simp [cashier_assign_prize, hrc] at h
  | ok cid =>
    cases idxRaw with
    | none => simp [cashier_assign_prize, hrc] at h
    | some idx =>
      by_cases hb : idx < 0 ∨ (g.prizes.length : Int) ≤ idx
      · simp [cashier_assign_prize, hrc, hb] at h
      · by_cases hpaid : (g.prizes[idx.toNat]?.getD defaultPrize).paid
        · simp [cashier_assign_prize, hrc, hb, hpaid] at h
        · by_cases h0 : pyStrip wRaw = ""
          · simp [cashier_assign_prize, hrc, hb, hpaid, h0] at h
          · cases hw : dictGet (pyStrip wRaw) g.players with
            | none => simp [cashier_assign_prize, hrc, hb, hpaid, h0, hw] at h
            | some w =>
              by_cases hrole : w.role = "giocatore"
              · by_cases hpot : g.pot < (g.prizes[idx.toNat]?.getD defaultPrize).amount
                · simp [cashier_assign_prize, hrc, hb, hpaid, h0, hw, hrole, hpot] at h
                · have hgs : stepResult (cashier_assign_prize uid (some idx) wRaw ts g) g = g' := by
                    rw [h]
                    rfl
                  have hprz : g'.prizes = g.prizes.set idx.toNat
                      { g.prizes[idx.toNat]?.getD defaultPrize with
                        winner_id := some (pyStrip wRaw), paid := true } := by
                    rw [← hgs]
                    simp [cashier_assign_prize, hrc, hb, hpaid, h0, hw, hrole, hpot,
                      stepResult, List.getD_eq_getElem?_getD]
                  push_neg at hb
                  have hilen : idx.toNat < g.prizes.length := by omega
                  refine ⟨idx, rfl, by omega, hilen, ?_, ?_⟩
                  · rw [hprz, List.length_set]
                  · rw [hprz, List.getElem?_set_eq (by simpa using hilen)]
                    rfl
              · simp [cashier_assign_prize, hrc, hb, hpaid, h0, hw, hrole] at h

/-- C6: AssignPrize is not permitted twice on the same prize.  If the
referenced prize is already paid, the call (by a cashier, with a valid index)
fails with status 400 "Premio già pagato" and the committed state is exactly
the previous state; and after any successful AssignPrize of an index, a
second AssignPrize of the same index never succeeds, and fails with exactly
that AlreadyPaid error whenever the caller passes the cashier check. -/
theorem C6_no_double_assign (g : GameState) (uid : Option String) (idxRaw : Option Int)
    (wRaw : String) (ts : Nat) :
    (∀ cid idx, require_cashier uid g = .ok cid → idxRaw = some idx →
      ¬(idx < 0 ∨ (g.prizes.length : Int) ≤ idx) →
      (g.prizes[idx.toNat]?.getD defaultPrize).paid = true →
      cashier_assign_prize uid idxRaw wRaw ts g = .error ⟨400, "Premio già pagato"⟩ ∧
      stepResult (cashier_assign_prize uid idxRaw wRaw ts g) g = g) ∧
    (∀ g', cashier_assign_prize uid idxRaw wRaw ts g = .ok g' →
      ∀ (uid' : Option String) (w' : String) (ts' : Nat),
        (∀ g'', cashier_assign_prize uid' idxRaw w' ts' g' ≠ .ok g'') ∧
        (∀ cid', require_cashier uid' g' = .ok cid' →
          cashier_assign_prize uid' idxRaw w' ts' g' =
            .error ⟨400, "Premio già pagato"⟩)) := by
  constructor
  · intro cid idx hrc hidx hb hpaid
    subst hidx
    constructor
    · simp [cashier_assign_prize, hrc, hb, hpaid]
    · have herr : cashier_assign_prize uid (some idx) wRaw ts g =
          .error ⟨400, "Premio già pagato"⟩ := by
        simp [cashier_assign_prize, hrc, hb, hpaid]
      rw [herr]
      rfl
  · intro g' hok uid' w' ts'
    obtain ⟨idx, hidx, hge, hlt, hlen, hpaid'⟩ := assign_ok_paid hok
    subst hidx
    have hb' : ¬(idx < 0 ∨ (g'.prizes.length : Int) ≤ idx) := by
      rw [hlen]
      push_neg
      constructor
      · omega
      · have := hlt
        omega
    constructor
    · intro g''
      cases hrc' : require_cashier uid' g' with
      | error e => simp [cashier_assign_prize, hrc']
      | ok cid' => simp [cashier_assign_prize, hrc', hb', hpaid']
    · intro cid' hrc'
      simp [cashier_assign_prize, hrc', hb', hpaid']

/-- C6 witness: on the concrete state where the prize "Tombola" has already
been assigned, a second assignment of the same prize by the cashier fails
with the AlreadyPaid error. -/
theorem C6_no_double_assign_witness :
    cashier_assign_prize (some "c") (some 0) "p" 7 (run [Op.opJoin "c" "Boss" "cassiere" "4321" 0, Op.opJoin "p" "Anna" "giocatore" "" 1, Op.opCredit (some "c") "p" (some 50) 2, Op.opPlay (some "p") (some 30) 3, Op.opAddPrize (some "c") "Tombola" (some 30) 4, Op.opAssignPrize (some "c") (some 0) "p" 6] initState) =
      .error ⟨400, "Premio già pagato"⟩ := by
  have h := (C6_no_double_assign (run [Op.opJoin "c" "Boss" "cassiere" "4321" 0, Op.opJoin "p" "Anna" "giocatore" "" 1, Op.opCredit (some "c") "p" (some 50) 2, Op.opPlay (some "p") (some 30) 3, Op.opAddPrize (some "c") "Tombola" (some 30) 4] initState) (some "c") (some 0) "p" 6).2
    (run [Op.opJoin "c" "Boss" "cassiere" "4321" 0, Op.opJoin "p" "Anna" "giocatore" "" 1, Op.opCredit (some "c") "p" (some 50) 2, Op.opPlay (some "p") (some 30) 3, Op.opAddPrize (some "c") "Tombola" (some 30) 4, Op.opAssignPrize (some "c") (some 0) "p" 6] initState)
    (by rfl) (some "c") "p" 7
  exact h.2 "c" (by rfl)

/-- C5 witness: the registered player "p" with balance 50 wagers 30; the call
succeeds and the player's entry afterwards has balance 20. -/
theorem C5_wager_witness :
    ∃ g', player_play (some "p") (some 30) 3 (run [Op.opJoin "c" "Boss" "cassiere" "4321" 0, Op.opJoin "p" "Anna" "giocatore" "" 1, Op.opCredit (some "c") "p" (some 50) 2] initState) = .ok g' ∧
      dictGet "p" g'.players = some { name := "Anna", role := "giocatore", saldo := 20 } := by
  have h := (C5_wager (run [Op.opJoin "c" "Boss" "cassiere" "4321" 0, Op.opJoin "p" "Anna" "giocatore" "" 1, Op.opCredit (some "c") "p" (some 50) 2] initState) (some "p") (some 30) 3).2 "p" (by rfl)
  obtain ⟨_, _, _, hsucc⟩ := h
  obtain ⟨g', hg', hplayer, -, -, -⟩ :=
    hsucc 30 { name := "Anna", role := "giocatore", saldo := 50 } rfl (by decide) (by rfl)
      (by decide)
  refine ⟨g', hg', ?_⟩
  rw [hplayer]
  rfl

/-- C8: ResetPlayers invoked by the cashier removes every participant with
role player together with their entire ledgers, leaves no player-role entry
registered, clears the prize list, sets the pot to zero, zeroes the cashier's
balance, clears the cashier's ledger, and keeps the cashier registered. -/
theorem C8_reset_players {g : GameState} (uid : Option String) (ts : Nat) (cid : String)
    (hrc : require_cashier uid g = .ok cid)
    (hnd : (g.players.map Prod.fst).Nodup) :
    ∃ g', cashier_reset_players uid ts g = .ok g' ∧
      (∀ u q, dictGet u g.players = some q → q.role = "giocatore" →
        dictGet u g'.players = none ∧ dictGet u g'.ledger = none) ∧
      (∀ u q', dictGet u g'.players = some q' → q'.role ≠ "giocatore") ∧
      g'.prizes = [] ∧ g'.pot = 0 ∧
      (∃ pc, dictGet cid g.players = some pc ∧ pc.role = "cassiere" ∧
        dictGet cid g'.players = some { pc with saldo := 0 } ∧
        dictGet cid g'.ledger = some []) := by
  obtain ⟨huid, hcne, pc, hpc, hrolec⟩ := require_cashier_ok hrc
  have hmem_rm : ∀ u : String, (∃ q, dictGet u g.players = some q ∧ q.role = "giocatore") →
      u ∈ (g.players.filter (fun kv => decide (kv.2.role = "giocatore"))).map Prod.fst := by
    rintro u ⟨q, hq, hqrole⟩
    exact List.mem_map.mpr ⟨(u, q), List.mem_filter.mpr ⟨dictGet_mem hq, by simp [hqrole]⟩, rfl⟩
  have hcid_not : cid ∉ (g.players.filter (fun kv => decide (kv.2.role = "giocatore"))).map Prod.fst := by
    intro hin
    obtain ⟨⟨u, q⟩, hf, hfst⟩ := List.mem_map.mp hin
    obtain ⟨hq_mem, hq_rol⟩ := List.mem_filter.mp hf
    simp only [decide_eq_true_eq] at hq_rol
    have hu : u = cid := hfst
    subst hu
    have hq : dictGet u g.players = some q := mem_nodup_dictGet hq_mem hnd
    rw [hpc] at hq
    injection hq with hq
    rw [hq, hq_rol] at hrolec
    exact absurd hrolec (by decide)
  have hp1 : dictGet cid
      (((g.players.filter (fun kv => decide (kv.2.role = "giocatore"))).map Prod.fst).foldl
        (fun d u => dictRemove u d) g.players) = some pc := by
    rw [foldl_dictRemove_get_of_not_mem hcid_not, hpc]
  have hex : ∃ g', cashier_reset_players uid ts g = .ok g' := by
    simp [cashier_reset_players, hrc]
  obtain ⟨g', hg'⟩ := hex
  have hgs : stepResult (cashier_reset_players uid ts g) g = g' := by
    rw [hg']
    rfl
  have hplayers : g'.players = dictModify cid (fun q => { q with saldo := 0 })
      (((g.players.filter (fun kv => decide (kv.2.role = "giocatore"))).map Prod.fst).foldl
        (fun d u => dictRemove u d) g.players) := by
    rw [← hgs]
    simp [cashier_reset_players, hrc, stepResult, hp1]
  have hledger : g'.ledger = dictSet cid ([] : List LedgerEntry)
      (((g.players.filter (fun kv => decide (kv.2.role = "giocatore"))).map Prod.fst).foldl
        (fun d u => dictRemove u d) g.ledger) := by
    rw [← hgs]
    simp [cashier_reset_players, hrc, stepResult, hp1]
  have hprizes : g'.prizes = [] := by
    rw [← hgs]
    simp [cashier_reset_players, hrc, stepResult, hp1]
  have hpot : g'.pot = 0 := by
    rw [← hgs]
    simp [cashier_reset_players, hrc, stepResult, hp1]
  refine ⟨g', hg', ?_, ?_, hprizes, hpot, pc, hpc, hrolec, ?_, ?_⟩
  · intro u q hq hqrole
    have hin := hmem_rm u ⟨q, hq, hqrole⟩
    have hune : u ≠ cid := by
      intro he
      rw [he, hpc] at hq
      injection hq with hq
      rw [hq, hqrole] at hrolec
      exact absurd hrolec (by decide)
    constructor
    · rw [hplayers, dictGet_dictModify_ne hune]
      exact foldl_dictRemove_get_of_mem hin _
    · rw [hledger, dictGet_dictSet_ne hune]
      exact foldl_dictRemove_get_of_mem hin _
  · intro u q' hq'
    rw [hplayers] at hq'
    by_cases hu : u = cid
    · subst hu
      rw [dictGet_dictModify_self _ hp1] at hq'
      injection hq' with hq'
      rw [← hq']
      show pc.role ≠ "giocatore"
      rw [hrolec]
      decide
    · rw [dictGet_dictModify_ne hu] at hq'
      intro hqrole'
      have hmem2 : (u, q') ∈ g.players :=
        (foldl_dictRemove_sublist _ _).subset (dictGet_mem hq')
      have hin := hmem_rm u ⟨q', mem_nodup_dictGet hmem2 hnd, hqrole'⟩
      have := foldl_dictRemove_get_of_mem hin g.players
      rw [this] at hq'
      exact Option.noConfusion hq'
  · rw [hplayers, dictGet_dictModify_self _ hp1]
  · rw [hledger, dictGet_dictSet_self]

/-- C8 witness: on the concrete state with cashier "c" and player "p" (with a
pot and a prize), the cashier reset removes "p" and its ledger, empties the
prizes, zeroes the pot, and keeps "c" registered with balance 0 and an empty
ledger. -/
theorem C8_reset_players_witness :
    ∃ g', cashier_reset_players (some "c") 5 (run [Op.opJoin "c" "Boss" "cassiere" "4321" 0, Op.opJoin "p" "Anna" "giocatore" "" 1, Op.opCredit (some "c") "p" (some 50) 2, Op.opPlay (some "p") (some 30) 3, Op.opAddPrize (some "c") "Tombola" (some 30) 4] initState) = .ok g' ∧
      dictGet "p" g'.players = none ∧ dictGet "p" g'.ledger = none ∧
      g'.prizes = [] ∧ g'.pot = 0 ∧
      dictGet "c" g'.players = some { name := "Boss", role := "cassiere", saldo := 0 } := by
  obtain ⟨g', hok, hrem, -, hprz, hpot, pc, hpc, -, hcplayers, -⟩ :=
    @C8_reset_players (run [Op.opJoin "c" "Boss" "cassiere" "4321" 0, Op.opJoin "p" "Anna" "giocatore" "" 1, Op.opCredit (some "c") "p" (some 50) 2, Op.opPlay (some "p") (some 30) 3, Op.opAddPrize (some "c") "Tombola" (some 30) 4] initState) (some "c") 5 "c" (by rfl) (by decide)
  have hrm := hrem "p" { name := "Anna", role := "giocatore", saldo := 20 } (by rfl) rfl
  refine ⟨g', hok, hrm.1, hrm.2, hprz, hpot, ?_⟩
  have hpc2 : pc = { name := "Boss", role := "cassiere", saldo := -50 } := by
    have : dictGet "c" (run [Op.opJoin "c" "Boss" "cassiere" "4321" 0, Op.opJoin "p" "Anna" "giocatore" "" 1, Op.opCredit (some "c") "p" (some 50) 2, Op.opPlay (some "p") (some 30) 3, Op.opAddPrize (some "c") "Tombola" (some 30) 4] initState).players = some { name := "Boss", role := "cassiere", saldo := -50 } := by rfl
    rw [this] at hpc
    injection hpc with hpc
    exact hpc.symm
  rw [hcplayers, hpc2]

/-- C9: the projected snapshot exposes a participant's balance as non-null
only when the viewer is a registered cashier or the entry is the viewer's
own; for a registered player viewer every other participant's balance is
null and the prize list contains no paid prize; an anonymous viewer (no id)
sees no non-null balances and no prizes at all. -/
theorem C9_projection_privacy (g : GameState) (viewer_id : Option String) :
    (∀ item ∈ (public_state_for viewer_id g).players, item.saldo ≠ none →
      (∃ vid p, viewer_id = some vid ∧ dictGet vid g.players = some p ∧
        p.role = "cassiere") ∨
      viewer_id = some item.id) ∧
    (∀ vid p, viewer_id = some vid → vid ≠ "" → dictGet vid g.players = some p →
      p.role = "giocatore" →
      (∀ item ∈ (public_state_for viewer_id g).players, item.id ≠ vid →
        item.saldo = none) ∧
      (∀ pr ∈ (public_state_for viewer_id g).prizes, pr.paid = false)) ∧
    (viewer_id = none →
      (∀ item ∈ (public_state_for viewer_id g).players, item.saldo = none) ∧
      (public_state_for viewer_id g).prizes = []) := by
  refine ⟨?_, ?_, ?_⟩
  · intro item hmem hsal
    rw [public_state_for_players] at hmem
    obtain ⟨kv, hkv, rfl⟩ := mem_players_public_iff.mp hmem
    have hsal2 : publicSaldo viewer_id g kv ≠ none := hsal
    unfold publicSaldo at hsal2
    by_cases hcas : (viewerOf viewer_id g).map Player.role = some "cassiere"
    · left
      cases viewer_id with
      | none => simp [viewerOf] at hcas
      | some vid =>
        by_cases hvid : vid = ""
        · rw [show viewerOf (some vid) g = none by simp [viewerOf, hvid]] at hcas
          simp at hcas
        · rw [show viewerOf (some vid) g = dictGet vid g.players by
            simp [viewerOf, hvid]] at hcas
          rw [Option.map_eq_some'] at hcas
          obtain ⟨p, hp, hrole⟩ := hcas
          exact ⟨vid, p, rfl, hp, hrole⟩
    · rw [if_neg hcas] at hsal2
      by_cases hown : viewer_id ≠ none ∧ viewer_id ≠ some "" ∧ viewer_id = some kv.1
      · right
        exact hown.2.2
      · rw [if_neg hown] at hsal2
        exact absurd rfl hsal2
  · intro vid p hvid hvne hp hrole
    subst hvid
    have hvoi : viewerOf (some vid) g = some p := by
      simp [viewerOf, hvne, hp]
    have hrole2 : (viewerOf (some vid) g).map Player.role = some "giocatore" := by
      rw [hvoi, Option.map_some', hrole]
    have hncas : ¬ (viewerOf (some vid) g).map Player.role = some "cassiere" := by
      rw [hrole2]
      simp
    constructor
    · intro item hmem hne
      rw [public_state_for_players] at hmem
      obtain ⟨kv, hkv, rfl⟩ := mem_players_public_iff.mp hmem
      show publicSaldo (some vid) g kv = none
      unfold publicSaldo
      rw [if_neg hncas, if_neg]
      rintro ⟨-, -, heq⟩
      injection heq with heq
      exact hne heq.symm
    · intro pr hpr
      rw [public_state_for_prizes, if_neg hncas, if_pos hrole2] at hpr
      obtain ⟨-, hnp⟩ := List.mem_filter.mp hpr
      simpa using hnp
  · intro hnone
    subst hnone
    constructor
    · intro item hmem
      rw [public_state_for_players] at hmem
      obtain ⟨kv, hkv, rfl⟩ := mem_players_public_iff.mp hmem
      show publicSaldo none g kv = none
      unfold publicSaldo
      rw [if_neg (by simp [viewerOf]), if_neg ?_]
      rintro ⟨h, -⟩
      exact h rfl
    · rw [public_state_for_prizes, if_neg (by simp [viewerOf]),
        if_neg (by simp [viewerOf])]

/-- C9 witness: on the concrete state with the paid prize "Tombola", the
player viewer "p" sees no other participant's balance and no paid prize. -/
theorem C9_projection_privacy_witness :
    (∀ item ∈ (public_state_for (some "p") (run [Op.opJoin "c" "Boss" "cassiere" "4321" 0, Op.opJoin "p" "Anna" "giocatore" "" 1, Op.opCredit (some "c") "p" (some 50) 2, Op.opPlay (some "p") (some 30) 3, Op.opAddPrize (some "c") "Tombola" (some 30) 4, Op.opAssignPrize (some "c") (some 0) "p" 6] initState)).players,
      item.id ≠ "p" → item.saldo = none) ∧
    (∀ pr ∈ (public_state_for (some "p") (run [Op.opJoin "c" "Boss" "cassiere" "4321" 0, Op.opJoin "p" "Anna" "giocatore" "" 1, Op.opCredit (some "c") "p" (some 50) 2, Op.opPlay (some "p") (some 30) 3, Op.opAddPrize (some "c") "Tombola" (some 30) 4, Op.opAssignPrize (some "c") (some 0) "p" 6] initState)).prizes,
      pr.paid = false) :=
  (C9_projection_privacy (run [Op.opJoin "c" "Boss" "cassiere" "4321" 0, Op.opJoin "p" "Anna" "giocatore" "" 1, Op.opCredit (some "c") "p" (some 50) 2, Op.opPlay (some "p") (some 30) 3, Op.opAddPrize (some "c") "Tombola" (some 30) 4, Op.opAssignPrize (some "c") (some 0) "p" 6] initState) (some "p")).2.1
    "p" { name := "Anna", role := "giocatore", saldo := 50 } rfl (by decide) (by rfl) rfl

end BingoCoin
